import Mathlib

/-!
Verification development for the chord-sight SF2 synthesizer core.

The TypeScript sources are shallowly embedded:
- binary input is a list of bytes (List Nat, entries taken mod 256);
  DataView reads are total, out-of-range reads yield 0;
- fallible code returns Except String;
- machine numbers become Nat / Int with explicit signed decoding;
- the real-valued pitch and envelope calculators are embedded over the reals.
-/

namespace SF2

/-- Byte access into the file buffer; out-of-range reads yield 0.  Entries are
normalized mod 256 so that every read is a genuine byte. -/
def byteAt (bs : List Nat) (i : Nat) : Nat :=
  (bs.getD i 0) % 256

/-- DataView.getUint8. -/
def getUint8 (bs : List Nat) (i : Nat) : Nat :=
  byteAt bs i

/-- DataView.getUint16 with little-endian byte order. -/
def getUint16 (bs : List Nat) (i : Nat) : Nat :=
  byteAt bs i + 256 * byteAt bs (i + 1)

/-- DataView.getUint32 with little-endian byte order. -/
def getUint32 (bs : List Nat) (i : Nat) : Nat :=
  byteAt bs i + 256 * byteAt bs (i + 1) + 65536 * byteAt bs (i + 2) +
    16777216 * byteAt bs (i + 3)

/-- DataView.getInt8: signed 8-bit decoding. -/
def getInt8 (bs : List Nat) (i : Nat) : Int :=
  let b := byteAt bs i
  if b ≥ 128 then (b : Int) - 256 else (b : Int)

/-- Signed 16-bit little-endian sample read (Int16Array element). -/
def getInt16 (bs : List Nat) (i : Nat) : Int :=
  let v := getUint16 bs i
  if v ≥ 32768 then (v : Int) - 65536 else (v : Int)

/-- The readFourCC helper: the four raw bytes of a FourCC tag.  FourCC string
comparisons in the source become byte-list comparisons here. -/
def readFourCC (bs : List Nat) (i : Nat) : List Nat :=
  [byteAt bs i, byteAt bs (i + 1), byteAt bs (i + 2), byteAt bs (i + 3)]

/-- The readString helper: NUL-terminated string of at most maxLength bytes. -/
def readString (bs : List Nat) (off maxLength : Nat) : String :=
  String.mk ((((List.range maxLength).map (fun i => byteAt bs (off + i))).takeWhile
    (fun c => c ≠ 0)).map Char.ofNat)

/-- FourCC constant RIFF. -/
def ccRIFF : List Nat := [82, 73, 70, 70]

/-- FourCC constant sfbk. -/
def ccSfbk : List Nat := [115, 102, 98, 107]

/-- FourCC constant LIST. -/
def ccLIST : List Nat := [76, 73, 83, 84]

/-- FourCC constant INFO. -/
def ccINFO : List Nat := [73, 78, 70, 79]

/-- FourCC constant sdta. -/
def ccSdta : List Nat := [115, 100, 116, 97]

/-- FourCC constant pdta. -/
def ccPdta : List Nat := [112, 100, 116, 97]

/-- FourCC constant smpl. -/
def ccSmpl : List Nat := [115, 109, 112, 108]

/-- FourCC constant phdr. -/
def ccPhdr : List Nat := [112, 104, 100, 114]

/-- FourCC constant pbag. -/
def ccPbag : List Nat := [112, 98, 97, 103]

/-- FourCC constant pgen. -/
def ccPgen : List Nat := [112, 103, 101, 110]

/-- FourCC constant inst. -/
def ccInst : List Nat := [105, 110, 115, 116]

/-- FourCC constant ibag. -/
def ccIbag : List Nat := [105, 98, 97, 103]

/-- FourCC constant igen. -/
def ccIgen : List Nat := [105, 103, 101, 110]

/-- FourCC constant shdr. -/
def ccShdr : List Nat := [115, 104, 100, 114]

/-- A low-high range as carried by the KeyRange and VelRange generators. -/
structure RangeLH where
  low : Nat
  high : Nat
deriving DecidableEq, Repr

/-- GeneratorMap from sf2.types: the six supported generators, each optional. -/
structure GeneratorMap where
  keyRange : Option RangeLH := none
  velRange : Option RangeLH := none
  sampleID : Option Int := none
  pan : Option Int := none
  fineTune : Option Int := none
  releaseVolEnv : Option Int := none
deriving DecidableEq, Repr

/-- Zone from sf2.types. -/
structure Zone where
  keyRange : RangeLH
  velRange : RangeLH
  generators : GeneratorMap
  sampleId : Option Int := none
  instrumentId : Option Int := none
deriving DecidableEq, Repr

/-- SampleHeader from sf2.types (shdr record). -/
structure SampleHeader where
  start : Nat
  endPos : Nat
  startLoop : Nat
  endLoop : Nat
  sampleRate : Nat
  originalPitch : Nat
  pitchCorrection : Int
  sampleLink : Nat := 0
  sampleType : Nat := 0
deriving DecidableEq, Repr

/-- Sample from sf2.types: name, 16-bit PCM data, header.  The header stored on
a parsed sample drops sampleLink and sampleType, exactly as parsePDTA copies
only the seven other fields. -/
structure Sample where
  name : String
  data : List Int
  header : SampleHeader
deriving DecidableEq, Repr

/-- Instrument from sf2.types. -/
structure Instrument where
  name : String
  zones : List Zone
deriving DecidableEq, Repr

/-- Preset from sf2.types. -/
structure Preset where
  name : String
  preset : Nat
  bank : Nat
  library : Nat
  genre : Nat
  morphology : Nat
  zones : List Zone
deriving DecidableEq, Repr

/-- SF2Info from sf2.types. -/
structure SF2Info where
  versionMajor : Nat := 0
  versionMinor : Nat := 0
  soundEngine : String := ""
  bankName : String := ""
  romName : Option String := none
  romVersionMajor : Option Nat := none
  romVersionMinor : Option Nat := none
  creationDate : Option String := none
  engineers : Option String := none
  product : Option String := none
  copyright : Option String := none
  comments : Option String := none
  software : Option String := none
deriving DecidableEq, Repr

/-- SF2Data from sf2.types. -/
structure SF2Data where
  info : SF2Info
  samples : List Sample
  presets : List Preset
  instruments : List Instrument
deriving DecidableEq, Repr

/-- Bag record (zone index range). -/
structure Bag where
  genIndex : Nat
  modIndex : Nat
deriving DecidableEq, Repr

/-- A decoded generator amount: a signed number or a low/high sub-range. -/
inductive GenAmount where
  | num (n : Int)
  | range (low high : Nat)
deriving DecidableEq, Repr

/-- A decoded generator record. -/
structure Gen where
  type : Nat
  amount : GenAmount
deriving DecidableEq, Repr

end SF2

namespace SF2

/-- FourCC constant ifil. -/
def ccIfil : List Nat := [105, 102, 105, 108]

/-- FourCC constant isng. -/
def ccIsng : List Nat := [105, 115, 110, 103]

/-- FourCC constant INAM. -/
def ccINAM : List Nat := [73, 78, 65, 77]

/-- FourCC constant irom. -/
def ccIrom : List Nat := [105, 114, 111, 109]

/-- FourCC constant iver. -/
def ccIver : List Nat := [105, 118, 101, 114]

/-- FourCC constant ICRD. -/
def ccICRD : List Nat := [73, 67, 82, 68]

/-- FourCC constant IENG. -/
def ccIENG : List Nat := [73, 69, 78, 71]

/-- FourCC constant IPRD. -/
def ccIPRD : List Nat := [73, 80, 82, 68]

/-- FourCC constant ICOP. -/
def ccICOP : List Nat := [73, 67, 79, 80]

/-- FourCC constant ICMT. -/
def ccICMT : List Nat := [73, 67, 77, 84]

/-- FourCC constant ISFT. -/
def ccISFT : List Nat := [73, 83, 70, 84]

/-- Offsets of the three top-level LIST chunks found by findChunks. -/
structure ChunkOffsets where
  info : Nat
  sdta : Nat
  pdta : Nat
deriving DecidableEq, Repr

/-- The while loop of findChunks.  Every iteration advances the offset by at
least 8, so fuel equal to the buffer length bounds the iteration count. -/
def findChunksLoop (bs : List Nat) :
    Nat → Nat → Option Nat × Option Nat × Option Nat →
    Option Nat × Option Nat × Option Nat
  | 0, _, acc => acc
  | fuel + 1, currentOffset, acc =>
    if currentOffset < bs.length - 8 then
      let listID := readFourCC bs currentOffset
      let listSize := getUint32 bs (currentOffset + 4)
      let listType := readFourCC bs (currentOffset + 8)
      let acc2 :=
        if listID = ccLIST then
          if listType = ccINFO then (some currentOffset, acc.2.1, acc.2.2)
          else if listType = ccSdta then (acc.1, some currentOffset, acc.2.2)
          else if listType = ccPdta then (acc.1, acc.2.1, some currentOffset)
          else acc
        else acc
      findChunksLoop bs fuel (currentOffset + 8 + listSize) acc2
    else acc

/-- findChunks: locate the INFO, sdta and pdta LIST chunks; missing chunks are
reported in the same order as the source. -/
def findChunks (bs : List Nat) : Except String ChunkOffsets :=
  let res := findChunksLoop bs (bs.length + 1) 12 (none, none, none)
  match res.1, res.2.1, res.2.2 with
  | some i, some s, some p => .ok ⟨i, s, p⟩
  | none, _, _ => .error "INFO chunk not found"
  | some _, none, _ => .error "SDTA chunk not found"
  | some _, some _, none => .error "PDTA chunk not found"

/-- The while loop of parseINFO; each iteration advances by at least 8 bytes,
so fuel listSize + 1 is enough. -/
def parseINFOLoop (bs : List Nat) (endOffset : Nat) :
    Nat → Nat → SF2Info → SF2Info
  | 0, _, info => info
  | fuel + 1, currentOffset, info =>
    if currentOffset < endOffset - 8 then
      let chunkID := readFourCC bs currentOffset
      let chunkSize := getUint32 bs (currentOffset + 4)
      let off := currentOffset + 8
      let info2 :=
        if chunkID = ccIfil then
          { info with versionMajor := getUint16 bs off,
                      versionMinor := getUint16 bs (off + 2) }
        else if chunkID = ccIsng then
          { info with soundEngine := readString bs off chunkSize }
        else if chunkID = ccINAM then
          { info with bankName := readString bs off chunkSize }
        else if chunkID = ccIrom then
          { info with romName := some (readString bs off chunkSize) }
        else if chunkID = ccIver then
          { info with romVersionMajor := some (getUint16 bs off),
                      romVersionMinor := some (getUint16 bs (off + 2)) }
        else if chunkID = ccICRD then
          { info with creationDate := some (readString bs off chunkSize) }
        else if chunkID = ccIENG then
          { info with engineers := some (readString bs off chunkSize) }
        else if chunkID = ccIPRD then
          { info with product := some (readString bs off chunkSize) }
        else if chunkID = ccICOP then
          { info with copyright := some (readString bs off chunkSize) }
        else if chunkID = ccICMT then
          { info with comments := some (readString bs off chunkSize) }
        else if chunkID = ccISFT then
          { info with software := some (readString bs off chunkSize) }
        else info
      parseINFOLoop bs endOffset fuel (off + chunkSize) info2
    else info

/-- parseINFO: walk the INFO sub-chunks, collecting metadata fields. -/
def parseINFO (bs : List Nat) (offset : Nat) : SF2Info :=
  let listSize := getUint32 bs (offset + 4)
  parseINFOLoop bs (offset + 8 + listSize) (listSize + 1) (offset + 12)
    { versionMajor := 0, versionMinor := 0, soundEngine := "", bankName := "" }

/-- parseSDTA: verify the smpl sub-chunk tag; the sample data view built in the
source is discarded there and the method returns an empty array (the samples
are assembled later in parsePDTA). -/
def parseSDTA (bs : List Nat) (offset : Nat) : Except String (List Sample) :=
  let currentOffset := offset + 12
  if readFourCC bs currentOffset = ccSmpl then .ok []
  else .error "Expected smpl chunk"

/-- JS-object semantics for the pdta sub-chunk map: assignment overwrites an
existing key, otherwise appends. -/
def chunkSet (table : List (List Nat × Nat × Nat)) (key : List Nat)
    (off size : Nat) : List (List Nat × Nat × Nat) :=
  match table with
  | [] => [(key, off, size)]
  | r :: rest =>
    if r.1 = key then (key, off, size) :: rest
    else r :: chunkSet rest key off size

/-- Property lookup in the pdta sub-chunk map. -/
def lookupChunk (table : List (List Nat × Nat × Nat)) (key : List Nat) :
    Option (Nat × Nat) :=
  (table.find? (fun r => r.1 = key)).map (fun r => r.2)

/-- The sub-chunk scanning loop of parsePDTA; advances at least 8 per step. -/
def scanPdtaLoop (bs : List Nat) (endOffset : Nat) :
    Nat → Nat → List (List Nat × Nat × Nat) → List (List Nat × Nat × Nat)
  | 0, _, table => table
  | fuel + 1, currentOffset, table =>
    if currentOffset < endOffset - 8 then
      let chunkID := readFourCC bs currentOffset
      let chunkSize := getUint32 bs (currentOffset + 4)
      scanPdtaLoop bs endOffset fuel (currentOffset + 8 + chunkSize)
        (chunkSet table chunkID (currentOffset + 8) chunkSize)
    else table

/-- The sub-chunk table collected by parsePDTA for a pdta LIST at offset. -/
def pdtaChunkTable (bs : List Nat) (offset : Nat) : List (List Nat × Nat × Nat) :=
  let listSize := getUint32 bs (offset + 4)
  scanPdtaLoop bs (offset + 8 + listSize) (listSize + 1) (offset + 12) []

/-- The seven mandatory pdta sub-chunks, in the order the source checks them. -/
def requiredChunks : List (List Nat) :=
  [ccPhdr, ccPbag, ccPgen, ccInst, ccIbag, ccIgen, ccShdr]

/-- The required-chunk check of parsePDTA: error on the first missing chunk. -/
def checkRequired (table : List (List Nat × Nat × Nat)) :
    List (List Nat) → Except String Unit
  | [] => .ok ()
  | c :: rest =>
    if (lookupChunk table c).isSome then checkRequired table rest
    else .error "Required PDTA chunk not found"

/-- parseSampleHeaders: fixed 46-byte records, the final terminator record is
skipped.  The source field end is renamed endPos (Lean keyword). -/
def parseSampleHeaders (bs : List Nat) (chunk : Nat × Nat) :
    List (String × SampleHeader) :=
  let count := chunk.2 / 46
  (List.range (count - 1)).map (fun i =>
    let offset := chunk.1 + i * 46
    (readString bs offset 20,
     { start := getUint32 bs (offset + 20),
       endPos := getUint32 bs (offset + 24),
       startLoop := getUint32 bs (offset + 28),
       endLoop := getUint32 bs (offset + 32),
       sampleRate := getUint32 bs (offset + 36),
       originalPitch := getUint8 bs (offset + 40),
       pitchCorrection := getInt8 bs (offset + 41),
       sampleLink := getUint16 bs (offset + 42),
       sampleType := getUint16 bs (offset + 44) }))

/-- parseBags: fixed 4-byte records. -/
def parseBags (bs : List Nat) (chunk : Nat × Nat) : List Bag :=
  (List.range (chunk.2 / 4)).map (fun i =>
    { genIndex := getUint16 bs (chunk.1 + i * 4),
      modIndex := getUint16 bs (chunk.1 + i * 4 + 2) })

/-- parseGenerators: 16-bit type tag and amount; types 43 and 44 carry a
two-byte sub-range, all others a signed 16-bit amount. -/
def parseGenerators (bs : List Nat) (chunk : Nat × Nat) : List Gen :=
  (List.range (chunk.2 / 4)).map (fun i =>
    let off := chunk.1 + i * 4
    let type := getUint16 bs off
    let rawAmount := getUint16 bs (off + 2)
    if type = 43 ∨ type = 44 then
      { type := type, amount := .range (rawAmount % 256) ((rawAmount / 256) % 256) }
    else
      { type := type,
        amount := .num (if rawAmount > 32767 then (rawAmount : Int) - 65536
                        else (rawAmount : Int)) })

/-- One step of buildZone: interpret a single generator record. -/
def buildZoneStep (zone : Zone) (gen : Gen) : Zone :=
  match gen.type, gen.amount with
  | 43, .range l h =>
    { zone with keyRange := ⟨l, h⟩,
                generators := { zone.generators with keyRange := some ⟨l, h⟩ } }
  | 44, .range l h =>
    { zone with velRange := ⟨l, h⟩,
                generators := { zone.generators with velRange := some ⟨l, h⟩ } }
  | 17, .num n =>
    { zone with generators := { zone.generators with pan := some n } }
  | 52, .num n =>
    { zone with generators := { zone.generators with fineTune := some n } }
  | 38, .num n =>
    { zone with generators := { zone.generators with releaseVolEnv := some n } }
  | 53, .num n =>
    { zone with sampleId := some n,
                generators := { zone.generators with sampleID := some n } }
  | 41, .num n =>
    { zone with instrumentId := some n }
  | _, _ => zone

/-- buildZone: fold the generator list over the default zone, whose key range
and velocity range both default to 0..127. -/
def buildZone (gens : List Gen) : Zone :=
  gens.foldl buildZoneStep
    { keyRange := ⟨0, 127⟩, velRange := ⟨0, 127⟩, generators := {} }

/-- The zone list spanned by a record: bags bagIndex..nextBagIndex, each bag
yielding the generator slice up to the next bag.  Out-of-range bag indices
read as the zero bag (the source would fault there on malformed input). -/
def zonesFromBags (bags : List Bag) (generators : List Gen)
    (bagIndex nextBagIndex : Nat) : List Zone :=
  (List.range (nextBagIndex - bagIndex)).map (fun k =>
    let b := bagIndex + k
    let bag := bags.getD b ⟨0, 0⟩
    let nextGenIndex :=
      if b < bags.length - 1 then (bags.getD (b + 1) ⟨0, 0⟩).genIndex
      else generators.length
    buildZone ((generators.drop bag.genIndex).take (nextGenIndex - bag.genIndex)))

/-- parseInstruments: fixed 22-byte records with a trailing terminator. -/
def parseInstruments (bs : List Nat) (instChunk ibagChunk igenChunk : Nat × Nat) :
    List Instrument :=
  let instCount := instChunk.2 / 22
  let bags := parseBags bs ibagChunk
  let generators := parseGenerators bs igenChunk
  (List.range (instCount - 1)).map (fun i =>
    let offset := instChunk.1 + i * 22
    let name := readString bs offset 20
    let bagIndex := getUint16 bs (offset + 20)
    let nextBagIndex :=
      if i < instCount - 2 then getUint16 bs (instChunk.1 + (i + 1) * 22 + 20)
      else bags.length
    { name := name, zones := zonesFromBags bags generators bagIndex nextBagIndex })

/-- Preset-zone expansion: a zone with an instrument id inlines that whole
instrument zone list; an unknown id contributes nothing. -/
def expandPresetZone (instruments : List Instrument) (zone : Zone) : List Zone :=
  match zone.instrumentId with
  | some iid =>
    if iid < 0 then []
    else
      match instruments.get? iid.toNat with
      | some instrument => instrument.zones
      | none => []
  | none => [zone]

/-- parsePresets: fixed 38-byte records with a trailing terminator; preset
zones referencing an instrument are expanded in place. -/
def parsePresets (bs : List Nat) (phdrChunk pbagChunk pgenChunk : Nat × Nat)
    (instruments : List Instrument) : List Preset :=
  let presetCount := phdrChunk.2 / 38
  let bags := parseBags bs pbagChunk
  let generators := parseGenerators bs pgenChunk
  (List.range (presetCount - 1)).map (fun i =>
    let offset := phdrChunk.1 + i * 38
    let name := readString bs offset 20
    let preset := getUint16 bs (offset + 20)
    let bank := getUint16 bs (offset + 22)
    let bagIndex := getUint16 bs (offset + 24)
    let library := getUint32 bs (offset + 26)
    let genre := getUint32 bs (offset + 30)
    let morphology := getUint32 bs (offset + 34)
    let nextBagIndex :=
      if i < presetCount - 2 then getUint16 bs (phdrChunk.1 + (i + 1) * 38 + 24)
      else bags.length
    let zones :=
      (zonesFromBags bags generators bagIndex nextBagIndex).flatMap
        (expandPresetZone instruments)
    { name := name, preset := preset, bank := bank, library := library,
      genre := genre, morphology := morphology, zones := zones })

/-- Sample assembly for one header: the bounds check of parsePDTA; a failing
header degrades to an empty, silent placeholder together with a warning
message (the console.warn of the source), instead of an exception. -/
def buildSample (smplData : List Int) (i : Nat) (nh : String × SampleHeader) :
    Sample × Option String :=
  let header := nh.2
  let start := header.start
  let endPos := header.endPos
  let name := if nh.1 = "" then "Sample " ++ toString i else nh.1
  if start ≥ smplData.length ∨ endPos > smplData.length ∨ start ≥ endPos then
    ({ name := name,
       data := [],
       header := { start := 0, endPos := 0, startLoop := 0, endLoop := 0,
                   sampleRate := if header.sampleRate = 0 then 44100
                                 else header.sampleRate,
                   originalPitch := if header.originalPitch = 0 then 60
                                    else header.originalPitch,
                   pitchCorrection := 0 } },
     some "Invalid indices")
  else
    ({ name := name,
       data := (smplData.drop start).take (endPos - start),
       header := { start := header.start, endPos := header.endPos,
                   startLoop := header.startLoop, endLoop := header.endLoop,
                   sampleRate := header.sampleRate,
                   originalPitch := header.originalPitch,
                   pitchCorrection := header.pitchCorrection } },
     none)

/-- The sample-building loop of parsePDTA over all parsed headers. -/
def buildSamples (smplData : List Int) (headers : List (String × SampleHeader)) :
    List Sample :=
  headers.enum.map (fun p => (buildSample smplData p.1 p.2).1)

/-- parsePDTA: scan sub-chunks, check the seven mandatory ones, assemble the
samples from the shdr records and the shared PCM block, then parse the
instruments and presets. -/
def parsePDTA (bs : List Nat) (offset : Nat) :
    Except String (List Sample × List Preset × List Instrument) :=
  let table := pdtaChunkTable bs offset
  match checkRequired table requiredChunks with
  | .error e => .error e
  | .ok _ =>
    let sampleHeaders := parseSampleHeaders bs ((lookupChunk table ccShdr).getD (0, 0))
    match findChunks bs with
    | .error e => .error e
    | .ok chunks =>
      let sdtaOffset := chunks.sdta
      let smplDataOffset := sdtaOffset + 20
      let smplSize := getUint32 bs (sdtaOffset + 16)
      let smplSampleCount := smplSize / 2
      let bufferEnd := smplDataOffset + smplSize
      if bufferEnd > bs.length then
        .error "Invalid SDTA chunk size: exceeds buffer bounds"
      else
        let smplData :=
          (List.range smplSampleCount).map (fun k => getInt16 bs (smplDataOffset + 2 * k))
        let samples := buildSamples smplData sampleHeaders
        let instruments := parseInstruments bs
          ((lookupChunk table ccInst).getD (0, 0))
          ((lookupChunk table ccIbag).getD (0, 0))
          ((lookupChunk table ccIgen).getD (0, 0))
        let presets := parsePresets bs
          ((lookupChunk table ccPhdr).getD (0, 0))
          ((lookupChunk table ccPbag).getD (0, 0))
          ((lookupChunk table ccPgen).getD (0, 0))
          instruments
        .ok (samples, presets, instruments)

/-- validateRIFF: the 12-byte container header check. -/
def validateRIFF (bs : List Nat) : Except String Unit :=
  if readFourCC bs 0 ≠ ccRIFF then .error "Invalid RIFF header"
  else if readFourCC bs 8 ≠ ccSfbk then .error "Invalid sfbk chunk"
  else .ok ()

/-- The body of parse before the catch-all wrapper. -/
def parseBody (bs : List Nat) : Except String SF2Data :=
  match validateRIFF bs with
  | .error e => .error e
  | .ok _ =>
    match findChunks bs with
    | .error e => .error e
    | .ok chunks =>
      let info := parseINFO bs chunks.info
      match parseSDTA bs chunks.sdta with
      | .error e => .error e
      | .ok _ =>
        match parsePDTA bs chunks.pdta with
        | .error e => .error e
        | .ok res =>
          .ok { info := info, samples := res.1, presets := res.2.1,
                instruments := res.2.2 }

/-- parse: the catch block of the source re-wraps any error message. -/
def parse (bs : List Nat) : Except String SF2Data :=
  match parseBody bs with
  | .ok d => .ok d
  | .error m => .error ("SF2 Parse Error: " ++ m)

end SF2

namespace PitchCalculator

/-- adjustForSampleRate from PitchCalculator.  The AudioContext rate is
modeled as a rational so that the equality branch of the source stays
decidable; the result is real-valued. -/
noncomputable def adjustForSampleRate (playbackRate : ℝ) (sampleRate : Nat)
    (contextRate : ℚ) : ℝ :=
  if (sampleRate : ℚ) = contextRate then playbackRate
  else playbackRate * ((sampleRate : ℝ) / ((contextRate : ℚ) : ℝ))

/-- calculatePlaybackRate from PitchCalculator: cents from the semitone
difference, the sample pitch correction and the zone fine tune, turned into
a ratio and corrected for the sample-rate mismatch. -/
noncomputable def calculatePlaybackRate (contextRate : ℚ) (midiNote : ℤ)
    (header : SF2.SampleHeader) (zone : SF2.Zone) : ℝ :=
  let originalPitch : ℤ := header.originalPitch
  let pitchCorrection : ℤ := header.pitchCorrection
  let fineTune : ℤ := zone.generators.fineTune.getD 0
  let semitoneDiff : ℤ := midiNote - originalPitch
  let totalCents : ℤ := semitoneDiff * 100 + pitchCorrection + fineTune
  let playbackRate : ℝ := Real.rpow 2 ((totalCents : ℝ) / 1200)
  adjustForSampleRate playbackRate header.sampleRate contextRate

end PitchCalculator

namespace EnvelopeCalculator

/-- timecentsToSeconds: seconds = 2 to the power timecents over 1200. -/
noncomputable def timecentsToSeconds (timecents : ℝ) : ℝ :=
  Real.rpow 2 (timecents / 1200)

/-- calculateReleaseTime: default 0.2 s when the generator is unset, otherwise
the timecents conversion clamped into 0.01 s .. 10 s. -/
noncomputable def calculateReleaseTime : Option ℤ → ℝ
  | none => 0.2
  | some releaseVolEnv =>
    let releaseTime := timecentsToSeconds ((releaseVolEnv : ℤ) : ℝ)
    if releaseTime < 0.01 then 0.01
    else if releaseTime > 10 then 10
    else releaseTime

end EnvelopeCalculator

namespace SampleManager

/-- LRU cache entry; the decoded AudioBuffer is represented by its frame
length, lastAccessed is the Date.now timestamp. -/
structure CacheEntry where
  bufferLen : Nat
  lastAccessed : Nat
  size : Nat
deriving DecidableEq, Repr

/-- SampleManager state: parsed samples, the insertion-ordered cache map,
the entry capacity and the tracked byte usage. -/
structure State where
  samples : List SF2.Sample
  cache : List (Nat × CacheEntry)
  maxCacheSize : Nat
  totalMemoryUsage : Nat
deriving DecidableEq, Repr

/-- Constructor: config.maxCacheSize falls back to 150 when absent or zero
(the or-default of the source). -/
def create (samples : List SF2.Sample) (cfg : Option Nat) : State :=
  { samples := samples, cache := [],
    maxCacheSize := match cfg with | none => 150 | some 0 => 150 | some n => n,
    totalMemoryUsage := 0 }

/-- Map.get on the cache. -/
def cacheFind (cache : List (Nat × CacheEntry)) (id : Nat) : Option CacheEntry :=
  (cache.find? (fun p => p.1 = id)).map Prod.snd

/-- Map.set semantics: update in place preserving insertion order, otherwise
append at the end. -/
def cacheSet : List (Nat × CacheEntry) → Nat → CacheEntry → List (Nat × CacheEntry)
  | [], id, e => [(id, e)]
  | p :: rest, id, e =>
    if p.1 = id then (id, e) :: rest else p :: cacheSet rest id e

/-- Map.delete semantics. -/
def cacheDelete (id : Nat) : List (Nat × CacheEntry) → List (Nat × CacheEntry)
  | [] => []
  | p :: rest => if p.1 = id then rest else p :: cacheDelete id rest

/-- The scanning loop of evictLRU: oldestTime starts at infinity, strict
less-than keeps the first minimum in iteration order. -/
def findOldestAux : List (Nat × CacheEntry) → Option (Nat × Nat) → Option (Nat × Nat)
  | [], acc => acc
  | p :: rest, acc =>
    match acc with
    | none => findOldestAux rest (some (p.1, p.2.lastAccessed))
    | some (oid, ot) =>
      if p.2.lastAccessed < ot then findOldestAux rest (some (p.1, p.2.lastAccessed))
      else findOldestAux rest (some (oid, ot))

/-- The id selected by the evictLRU scan. -/
def findOldestId (cache : List (Nat × CacheEntry)) : Option Nat :=
  (findOldestAux cache none).map Prod.fst

/-- evictLRU: delete the least-recently-accessed entry and release its bytes. -/
def evictLRU (st : State) : State :=
  match findOldestId st.cache with
  | none => st
  | some oid =>
    let size := ((cacheFind st.cache oid).map CacheEntry.size).getD 0
    { st with totalMemoryUsage := st.totalMemoryUsage - size,
              cache := cacheDelete oid st.cache }

/-- The while loop of addToCache.  Fuel equal to the cache size bounds the
iterations: each eviction from a nonempty cache removes one entry.  The
emptiness guard only matters for the degenerate capacity 0, where the
source loop would not terminate on an empty cache. -/
def evictLoop : Nat → State → State
  | 0, st => st
  | fuel + 1, st =>
    if st.maxCacheSize ≤ st.cache.length ∧ st.cache ≠ [] then
      evictLoop fuel (evictLRU st)
    else st

/-- addToCache: evict while at or above capacity, then insert the new entry
(Float32 frames, 4 bytes each, mono). -/
def addToCache (st : State) (sampleId : Nat) (bufferLen : Nat) (now : Nat) : State :=
  let size := bufferLen * 1 * 4
  let st1 := evictLoop st.cache.length st
  { st1 with
      cache := cacheSet st1.cache sampleId
        { bufferLen := bufferLen, lastAccessed := now, size := size },
      totalMemoryUsage := st1.totalMemoryUsage + size }

/-- getSampleData: raw sample lookup with the explicit bounds check. -/
def getSampleData (st : State) (sampleId : Nat) : Option SF2.Sample :=
  st.samples.get? sampleId

/-- loadSample: cache hit refreshes lastAccessed; a miss materializes the
buffer (its frame count is the PCM length) and adds it to the cache; an
unknown id throws. -/
def loadSample (st : State) (now : Nat) (sampleId : Nat) : Except String State :=
  match cacheFind st.cache sampleId with
  | some e =>
    .ok { st with cache := cacheSet st.cache sampleId { e with lastAccessed := now } }
  | none =>
    match getSampleData st sampleId with
    | none => .error "Sample not found"
    | some s => .ok (addToCache st sampleId s.data.length now)

/-- getSample (synchronous): refresh on hit, no insertion on miss. -/
def getSample (st : State) (now : Nat) (sampleId : Nat) : State :=
  match cacheFind st.cache sampleId with
  | some e =>
    { st with cache := cacheSet st.cache sampleId { e with lastAccessed := now } }
  | none => st

/-- clearCache. -/
def clearCache (st : State) : State :=
  { st with cache := [], totalMemoryUsage := 0 }

/-- Cache operations requested from outside, with their Date.now readings. -/
inductive Event where
  | load (now id : Nat)
  | getSync (now id : Nat)
  | clear
deriving DecidableEq, Repr

/-- Apply one event; a load failure propagates to the caller with the state
unchanged. -/
def applyEvent (st : State) : Event → State
  | .load now id =>
    match loadSample st now id with
    | .ok st2 => st2
    | .error _ => st
  | .getSync now id => getSample st now id
  | .clear => clearCache st

/-- Run a sequence of cache operations. -/
def run (st : State) (evts : List Event) : State :=
  evts.foldl applyEvent st

end SampleManager

namespace SoundEngine

/-- One sounding voice.  The Web Audio node handles (left and right sources,
gain node, merger) live outside the state model; operations on them are
recorded as commands keyed by the voice id. -/
structure EVoice where
  id : Nat
  midiNote : Nat
  velocity : Nat
  startTime : ℚ
  releaseTime : Option ℚ := none
  isReleasing : Bool := false
  zones : List SF2.Zone := []
deriving DecidableEq, Repr

/-- Audio-graph commands emitted by the engine: gain automation, source stop
scheduling (right selects the channel; a stop without a timestamp is
immediate) and node disconnection. -/
inductive AudioCmd where
  | cancelScheduledValues (voiceId : Nat) (t : ℚ)
  | setValueAtTime (voiceId : Nat) (g t : ℚ)
  | linearRampToValueAtTime (voiceId : Nat) (g t : ℚ)
  | exponentialRampToValueAtTime (voiceId : Nat) (g t : ℚ)
  | stopSource (voiceId : Nat) (right : Bool) (t : Option ℚ)
  | disconnectNodes (voiceId : Nat)
deriving DecidableEq, Repr

/-- Engine state: the SF2 bank, the voice registry (a Map from note number to
voice array, in key insertion order), the sustain pedal and set, and the
polyphony limit. -/
structure State where
  sf2Data : SF2.SF2Data
  voices : List (Nat × List EVoice)
  sustainPedal : Bool := false
  sustainedNotes : List Nat := []
  maxPolyphony : Nat
deriving DecidableEq, Repr

/-- Constructor: config.maxPolyphony falls back to 64 when absent or zero
(the or-default of the source). -/
def create (sf2Data : SF2.SF2Data) (cfg : Option Nat) : State :=
  { sf2Data := sf2Data, voices := [],
    maxPolyphony := match cfg with | none => 64 | some 0 => 64 | some n => n }

/-- Map.get on the registry, with the source treating a missing entry like an
empty array. -/
def regGet (reg : List (Nat × List EVoice)) (note : Nat) : List EVoice :=
  (((reg.find? (fun p => p.1 = note)).map Prod.snd)).getD []

/-- Map.set combined with push: append the voice to its note entry, creating
the entry at the end when the key is absent. -/
def regPush : List (Nat × List EVoice) → Nat → EVoice → List (Nat × List EVoice)
  | [], note, v => [(note, [v])]
  | p :: rest, note, v =>
    if p.1 = note then (p.1, p.2 ++ [v]) :: rest else p :: regPush rest note v

/-- In-place mutation of the voice array of one note through the Map
reference. -/
def regMapAt (reg : List (Nat × List EVoice)) (note : Nat)
    (f : List EVoice → List EVoice) : List (Nat × List EVoice) :=
  reg.map (fun p => if p.1 = note then (p.1, f p.2) else p)

/-- Total live voice count across the registry. -/
def totalVoices (reg : List (Nat × List EVoice)) : Nat :=
  (reg.map (fun p => p.2.length)).sum

/-- All voices in Map iteration order. -/
def flattenReg (reg : List (Nat × List EVoice)) : List EVoice :=
  reg.flatMap Prod.snd

/-- Set.add semantics: no-op when present, append otherwise. -/
def addSet (n : Nat) (s : List Nat) : List Nat :=
  if n ∈ s then s else s ++ [n]

/-- Set.delete semantics. -/
def removeSet (n : Nat) (s : List Nat) : List Nat :=
  s.erase n

/-- The key and velocity range test of selectZones. -/
def zoneMatches (zone : SF2.Zone) (midiNote velocity : Nat) : Bool :=
  decide (zone.keyRange.low ≤ midiNote ∧ midiNote ≤ zone.keyRange.high ∧
    zone.velRange.low ≤ velocity ∧ velocity ≤ zone.velRange.high)

/-- selectZones: all zones of the first preset matching note and velocity. -/
def selectZones (sf2 : SF2.SF2Data) (midiNote velocity : Nat) : List SF2.Zone :=
  match sf2.presets with
  | [] => []
  | preset :: _ => preset.zones.filter (fun z => zoneMatches z midiNote velocity)

/-- getReleaseTime feeds the first zone releaseVolEnv generator (none when
the voice has no zones) into EnvelopeCalculator.calculateReleaseTime; the
conversion is supplied by the oracle rel at rational precision so that the
state model stays executable. -/
def getReleaseTime (rel : Option ℤ → ℚ) (v : EVoice) : ℚ :=
  match v.zones with
  | [] => rel none
  | z :: _ => rel z.generators.releaseVolEnv

/-- Per-voice body of the releaseNote loop.  gain is the current gainNode
value read back from the audio graph (an oracle keyed by voice id).  A voice
already releasing is skipped: no flag change, no gain automation, no stop
scheduling. -/
def releaseVoiceStep (rel : Option ℤ → ℚ) (gain : Nat → ℚ) (currentTime : ℚ)
    (v : EVoice) : EVoice × List AudioCmd :=
  if v.isReleasing then (v, [])
  else
    let releaseT := getReleaseTime rel v
    let currentGain := gain v.id
    let targetGain : ℚ := 1 / 10000
    let rampCmds :=
      if currentGain ≤ targetGain then
        [AudioCmd.setValueAtTime v.id currentGain currentTime,
         AudioCmd.linearRampToValueAtTime v.id 0 (currentTime + 1 / 100)]
      else
        [AudioCmd.setValueAtTime v.id currentGain currentTime,
         AudioCmd.exponentialRampToValueAtTime v.id targetGain (currentTime + releaseT)]
    ({ v with isReleasing := true, releaseTime := some (currentTime + releaseT) },
     (AudioCmd.cancelScheduledValues v.id currentTime :: rampCmds) ++
       [AudioCmd.stopSource v.id false (some (currentTime + releaseT + 1 / 10)),
        AudioCmd.stopSource v.id true (some (currentTime + releaseT + 1 / 10))])

/-- releaseNote: release every not-yet-releasing voice of the note. -/
def releaseNote (rel : Option ℤ → ℚ) (gain : Nat → ℚ) (currentTime : ℚ)
    (st : State) (midiNote : Nat) : State × List AudioCmd :=
  let noteVoices := regGet st.voices midiNote
  if noteVoices = [] then (st, [])
  else
    let voices2 := regMapAt st.voices midiNote
      (fun vs => vs.map (fun v => (releaseVoiceStep rel gain currentTime v).1))
    ({ st with voices := voices2 },
     noteVoices.flatMap (fun v => (releaseVoiceStep rel gain currentTime v).2))

/-- noteOff: defer while the sustain pedal is down, else release. -/
def noteOff (rel : Option ℤ → ℚ) (gain : Nat → ℚ) (currentTime : ℚ)
    (st : State) (midiNote : Nat) : State × List AudioCmd :=
  if regGet st.voices midiNote = [] then (st, [])
  else if st.sustainPedal then
    ({ st with sustainedNotes := addSet midiNote st.sustainedNotes }, [])
  else releaseNote rel gain currentTime st midiNote

/-- One iteration of a loop releasing a sequence of notes, accumulating the
emitted commands. -/
def releaseAccStep (rel : Option ℤ → ℚ) (gain : Nat → ℚ) (currentTime : ℚ)
    (acc : State × List AudioCmd) (n : Nat) : State × List AudioCmd :=
  let r := releaseNote rel gain currentTime acc.1 n
  (r.1, acc.2 ++ r.2)

/-- setSustainPedal: on pedal-up, release every sustained note, then clear
the set. -/
def setSustainPedal (rel : Option ℤ → ℚ) (gain : Nat → ℚ) (currentTime : ℚ)
    (st : State) (isDown : Bool) : State × List AudioCmd :=
  let st0 := { st with sustainPedal := isDown }
  if isDown then (st0, [])
  else
    let res := st0.sustainedNotes.foldl (releaseAccStep rel gain currentTime) (st0, [])
    ({ res.1 with sustainedNotes := [] }, res.2)

/-- The stealing priority: minus 1000 when releasing, minus the velocity,
plus 10 points per second of age. -/
def voicePriority (currentTime : ℚ) (v : EVoice) : ℚ :=
  (if v.isReleasing then (0 : ℚ) - 1000 else 0) - (v.velocity : ℚ) +
    (currentTime - v.startTime) * 10

/-- One comparison step of the stealOldestVoice scan: lowestPriority starts
at infinity, strict less-than keeps the first minimum in iteration order. -/
def stealScanStep (currentTime : ℚ) (acc : Option (EVoice × ℚ)) (v : EVoice) :
    Option (EVoice × ℚ) :=
  let priority := voicePriority currentTime v
  match acc with
  | none => some (v, priority)
  | some (tv, lowest) =>
    if priority < lowest then some (v, priority) else some (tv, lowest)

/-- The voice selected for stealing. -/
def stealScan (currentTime : ℚ) (vs : List EVoice) : Option EVoice :=
  (vs.foldl (stealScanStep currentTime) none).map Prod.fst

/-- removeVoice registry walk: find the first entry containing the voice,
remove that occurrence, and delete the entry (returning its note for the
sustain cleanup) when it empties.  JS object identity becomes structural
equality here. -/
def removeVoiceReg : List (Nat × List EVoice) → EVoice →
    List (Nat × List EVoice) × Option Nat
  | [], _ => ([], none)
  | p :: rest, v =>
    if v ∈ p.2 then
      let l2 := p.2.erase v
      if l2 = [] then (rest, some p.1) else ((p.1, l2) :: rest, none)
    else
      let r := removeVoiceReg rest v
      (p :: r.1, r.2)

/-- removeVoice: disconnect the audio nodes, drop the voice from the
registry, and keep the sustain set consistent when the note empties. -/
def removeVoice (st : State) (v : EVoice) : State × List AudioCmd :=
  let r := removeVoiceReg st.voices v
  ({ st with voices := r.1,
             sustainedNotes :=
               match r.2 with
               | some n => removeSet n st.sustainedNotes
               | none => st.sustainedNotes },
   [AudioCmd.disconnectNodes v.id])

/-- stealOldestVoice: stop and remove the single voice of lowest priority. -/
def stealOldestVoice (currentTime : ℚ) (st : State) : State × List AudioCmd :=
  match stealScan currentTime (flattenReg st.voices) with
  | none => (st, [])
  | some target =>
    let r := removeVoice st target
    (r.1, [AudioCmd.stopSource target.id false none,
           AudioCmd.stopSource target.id true none] ++ r.2)

/-- checkPolyphonyLimit: steal one voice when the registry is at or over the
polyphony limit. -/
def checkPolyphonyLimit (currentTime : ℚ) (st : State) : State × List AudioCmd :=
  if totalVoices st.voices ≥ st.maxPolyphony then stealOldestVoice currentTime st
  else (st, [])

/-- The 20 ms fade applied to existing voices of the same note on a new
strike (commands only; the faded voices leave the registry later through
their onended callback). -/
def fadeOldVoices (gain : Nat → ℚ) (currentTime : ℚ) (olds : List EVoice) :
    List AudioCmd :=
  olds.flatMap (fun oldVoice =>
    [AudioCmd.cancelScheduledValues oldVoice.id currentTime,
     AudioCmd.setValueAtTime oldVoice.id (gain oldVoice.id) currentTime,
     AudioCmd.linearRampToValueAtTime oldVoice.id 0 (currentTime + 1 / 50),
     AudioCmd.stopSource oldVoice.id false (some (currentTime + 1 / 50)),
     AudioCmd.stopSource oldVoice.id true (some (currentTime + 1 / 50))])

/-- noteOn.  currentTime is the audio-clock reading, playOk tells whether
playStereoPair succeeded (its failure is caught per note and leaves the
registry untouched), newVoiceId is the id of the voice object the stereo
manager creates.  A Nat velocity cannot be negative, so only the upper
range check remains. -/
def noteOn (gain : Nat → ℚ) (currentTime : ℚ) (st : State)
    (midiNote velocity : Nat) (playOk : Bool) (newVoiceId : Nat) :
    State × List AudioCmd :=
  if midiNote < 21 ∨ midiNote > 108 then (st, [])
  else if velocity > 127 then (st, [])
  else
    let zones := selectZones st.sf2Data midiNote velocity
    if zones = [] then (st, [])
    else
      let fadeCmds := fadeOldVoices gain currentTime (regGet st.voices midiNote)
      let poly := checkPolyphonyLimit currentTime st
      if playOk then
        let voice : EVoice :=
          { id := newVoiceId, midiNote := midiNote, velocity := velocity,
            startTime := currentTime, zones := zones }
        ({ poly.1 with
             voices := regPush poly.1.voices midiNote voice,
             sustainedNotes := removeSet midiNote poly.1.sustainedNotes },
         fadeCmds ++ poly.2)
      else (poly.1, fadeCmds ++ poly.2)

/-- allNotesOff: release every registered note in registry order, then clear
the sustain set. -/
def allNotesOff (rel : Option ℤ → ℚ) (gain : Nat → ℚ) (currentTime : ℚ)
    (st : State) : State × List AudioCmd :=
  let res := (st.voices.map Prod.fst).foldl (releaseAccStep rel gain currentTime) (st, [])
  ({ res.1 with sustainedNotes := [] }, res.2)

/-- panic: stop every source immediately and clear all registries. -/
def panic (st : State) : State × List AudioCmd :=
  ({ st with voices := [], sustainedNotes := [] },
   (flattenReg st.voices).flatMap (fun v =>
     [AudioCmd.stopSource v.id false none, AudioCmd.stopSource v.id true none]))

/-- The stats record of getStats. -/
structure Stats where
  activeVoices : Nat
  sustainedNotes : Nat
  sustainPedalDown : Bool
  maxPolyphony : Nat
deriving DecidableEq, Repr

/-- getStats. -/
def getStats (st : State) : Stats :=
  { activeVoices := totalVoices st.voices,
    sustainedNotes := st.sustainedNotes.length,
    sustainPedalDown := st.sustainPedal,
    maxPolyphony := st.maxPolyphony }

/-- Engine operations requested from outside, with the audio-clock readings
and per-call realization outcomes they depend on. -/
inductive Event where
  | evNoteOn (currentTime : ℚ) (midiNote velocity : Nat) (playOk : Bool) (newVoiceId : Nat)
  | evNoteOff (currentTime : ℚ) (midiNote : Nat)
  | evPedal (currentTime : ℚ) (down : Bool)
  | evEnded (v : EVoice)
  | evAllOff (currentTime : ℚ)
  | evPanic

/-- Apply one engine event (the emitted commands are dropped). -/
def applyEvent (rel : Option ℤ → ℚ) (gain : Nat → ℚ) (st : State) :
    Event → State
  | .evNoteOn t n vel ok vid => (noteOn gain t st n vel ok vid).1
  | .evNoteOff t n => (noteOff rel gain t st n).1
  | .evPedal t d => (setSustainPedal rel gain t st d).1
  | .evEnded v => (removeVoice st v).1
  | .evAllOff t => (allNotesOff rel gain t st).1
  | .evPanic => (panic st).1

/-- Run a sequence of engine events. -/
def run (rel : Option ℤ → ℚ) (gain : Nat → ℚ) (st : State)
    (evts : List Event) : State :=
  evts.foldl (applyEvent rel gain) st

end SoundEngine

/-! Theorems for the frozen claims, together with the helper lemmas and
concrete instances they need. -/

/-- C1: the playback rate equals 2 to the power of the total cents over 1200,
multiplied by sampleRate over the output device rate (source over output, not
the inverse); at matched pitch, zero corrections and matched rates the result
is exactly 1. -/
theorem c1_playback_rate_formula :
    (∀ (contextRate : ℚ) (midiNote : ℤ) (header : SF2.SampleHeader)
        (zone : SF2.Zone), contextRate ≠ 0 →
      PitchCalculator.calculatePlaybackRate contextRate midiNote header zone =
        Real.rpow 2
            ((((midiNote - (header.originalPitch : ℤ)) * 100 +
                header.pitchCorrection + zone.generators.fineTune.getD 0 : ℤ) : ℝ)
              / 1200) *
          ((header.sampleRate : ℝ) / ((contextRate : ℚ) : ℝ))) ∧
    (∀ (contextRate : ℚ) (midiNote : ℤ) (header : SF2.SampleHeader)
        (zone : SF2.Zone),
      midiNote = (header.originalPitch : ℤ) → header.pitchCorrection = 0 →
      zone.generators.fineTune.getD 0 = 0 →
      (header.sampleRate : ℚ) = contextRate →
      PitchCalculator.calculatePlaybackRate contextRate midiNote header zone = 1) := by
  constructor
  · intro contextRate midiNote header zone hctx
    simp only [PitchCalculator.calculatePlaybackRate,
      PitchCalculator.adjustForSampleRate]
    by_cases h : ((header.sampleRate : ℚ)) = contextRate
    · rw [if_pos h]
      have hc : ((contextRate : ℚ) : ℝ) ≠ 0 := by exact_mod_cast hctx
      have hs : ((header.sampleRate : ℝ)) = ((contextRate : ℚ) : ℝ) := by
        rw [← h]; push_cast; ring
      rw [hs, div_self hc, mul_one]
    · rw [if_neg h]
  · intro contextRate midiNote header zone h1 h2 h3 h4
    simp only [PitchCalculator.calculatePlaybackRate,
      PitchCalculator.adjustForSampleRate]
    rw [if_pos h4, h1, h2, h3]
    norm_num

/-- Witness for C1 at concrete inputs: an A4 sample at 48000 Hz against a
44100 Hz context, and a fully matched sample giving rate exactly 1. -/
theorem c1_playback_rate_formula_witness :
    (PitchCalculator.calculatePlaybackRate 44100 69
        { start := 0, endPos := 0, startLoop := 0, endLoop := 0,
          sampleRate := 48000, originalPitch := 69, pitchCorrection := 0 }
        { keyRange := ⟨0, 127⟩, velRange := ⟨0, 127⟩, generators := {} } =
      Real.rpow 2
          ((((69 - ((69 : Nat) : ℤ)) * 100 + 0 + Option.getD none 0 : ℤ) : ℝ) / 1200) *
        (((48000 : Nat) : ℝ) / ((44100 : ℚ) : ℝ))) ∧
    (PitchCalculator.calculatePlaybackRate 44100 60
        { start := 0, endPos := 0, startLoop := 0, endLoop := 0,
          sampleRate := 44100, originalPitch := 60, pitchCorrection := 0 }
        { keyRange := ⟨0, 127⟩, velRange := ⟨0, 127⟩, generators := {} } = 1) :=
  ⟨c1_playback_rate_formula.1 44100 69 _ _ (by norm_num),
   c1_playback_rate_formula.2 44100 60 _ _ (by norm_num) rfl rfl (by norm_num)⟩

/-- C5: the release-time conversion is the clamp of 2 to the power timecents
over 1200 into 0.01 .. 10 seconds, with default 0.2 when unset; in particular
the values at 0, 1200, unset and -100000. -/
theorem c5_release_time_conversion :
    (∀ tc : ℤ, EnvelopeCalculator.calculateReleaseTime (some tc) =
      max 0.01 (min 10 (Real.rpow 2 ((tc : ℝ) / 1200)))) ∧
    EnvelopeCalculator.calculateReleaseTime none = 0.2 ∧
    EnvelopeCalculator.calculateReleaseTime (some 0) = 1 ∧
    EnvelopeCalculator.calculateReleaseTime (some 1200) = 2 ∧
    EnvelopeCalculator.calculateReleaseTime (some (-100000)) = 0.01 := by
  have hgen : ∀ tc : ℤ, EnvelopeCalculator.calculateReleaseTime (some tc) =
      max 0.01 (min 10 (Real.rpow 2 ((tc : ℝ) / 1200))) := by
    intro tc
    simp only [EnvelopeCalculator.calculateReleaseTime,
      EnvelopeCalculator.timecentsToSeconds]
    rcases lt_or_le (Real.rpow 2 ((tc : ℝ) / 1200)) 0.01 with h1 | h1
    · rw [if_pos h1, min_eq_right (le_trans h1.le (by norm_num)),
        max_eq_left h1.le]
    · rw [if_neg (not_lt.mpr h1)]
      rcases lt_or_le (10 : ℝ) (Real.rpow 2 ((tc : ℝ) / 1200)) with h2 | h2
      · rw [if_pos h2, min_eq_left h2.le, max_eq_right (by norm_num)]
      · rw [if_neg (not_lt.mpr h2), min_eq_right h2, max_eq_right h1]
  refine ⟨hgen, rfl, ?_, ?_, ?_⟩
  · rw [hgen 0]
    norm_num
  · rw [hgen 1200]
    norm_num
  · rw [hgen (-100000)]
    have hle : (((-100000 : ℤ) : ℝ)) / 1200 ≤ (-7 : ℝ) := by push_cast; norm_num
    have h2 : Real.rpow 2 (((-100000 : ℤ) : ℝ) / 1200) ≤ Real.rpow 2 (-7 : ℝ) :=
      Real.rpow_le_rpow_of_exponent_le (by norm_num) hle
    have h3 : Real.rpow 2 (-7 : ℝ) < 0.01 := by
      have h4 : (2 : ℝ) ^ (-7 : ℝ) < 0.01 := by
        rw [show (-7 : ℝ) = ((-7 : ℤ) : ℝ) by norm_num, Real.rpow_intCast]
        norm_num
      exact h4
    have hx : Real.rpow 2 (((-100000 : ℤ) : ℝ) / 1200) < 0.01 :=
      lt_of_le_of_lt h2 h3
    rw [min_eq_right (hx.le.trans (by norm_num)), max_eq_left hx.le]

/-- A generator that is not a key-range generator leaves the key range of the
zone untouched. -/
theorem buildZoneStep_keyRange_of_ne (z : SF2.Zone) (g : SF2.Gen)
    (h : g.type ≠ 43) : (SF2.buildZoneStep z g).keyRange = z.keyRange := by
  unfold SF2.buildZoneStep
  split <;> simp_all

/-- A generator that is not a velocity-range generator leaves the velocity
range of the zone untouched. -/
theorem buildZoneStep_velRange_of_ne (z : SF2.Zone) (g : SF2.Gen)
    (h : g.type ≠ 44) : (SF2.buildZoneStep z g).velRange = z.velRange := by
  unfold SF2.buildZoneStep
  split <;> simp_all

/-- Folding generators none of which is a key-range generator preserves the
key range. -/
theorem buildZone_foldl_keyRange (gens : List SF2.Gen) (z : SF2.Zone)
    (h : ∀ g ∈ gens, g.type ≠ 43) :
    (gens.foldl SF2.buildZoneStep z).keyRange = z.keyRange := by
  induction gens generalizing z with
  | nil => rfl
  | cons g gs ih =>
    rw [List.foldl_cons, ih _ (fun x hx => h x (List.mem_cons_of_mem _ hx)),
      buildZoneStep_keyRange_of_ne _ _ (h g (List.mem_cons_self _ _))]

/-- Folding generators none of which is a velocity-range generator preserves
the velocity range. -/
theorem buildZone_foldl_velRange (gens : List SF2.Gen) (z : SF2.Zone)
    (h : ∀ g ∈ gens, g.type ≠ 44) :
    (gens.foldl SF2.buildZoneStep z).velRange = z.velRange := by
  induction gens generalizing z with
  | nil => rfl
  | cons g gs ih =>
    rw [List.foldl_cons, ih _ (fun x hx => h x (List.mem_cons_of_mem _ hx)),
      buildZoneStep_velRange_of_ne _ _ (h g (List.mem_cons_self _ _))]

/-- C10: a zone built from a generator list without a key-range generator
keeps the default key range 0..127 (and likewise for the velocity range), and
with both generators absent the zone-selection test accepts every note and
velocity in 0..127. -/
theorem c10_zone_default_ranges :
    ∀ gens : List SF2.Gen,
      ((∀ g ∈ gens, g.type ≠ 43) → (SF2.buildZone gens).keyRange = ⟨0, 127⟩) ∧
      ((∀ g ∈ gens, g.type ≠ 44) → (SF2.buildZone gens).velRange = ⟨0, 127⟩) ∧
      ((∀ g ∈ gens, g.type ≠ 43 ∧ g.type ≠ 44) →
        ∀ note vel : Nat, note ≤ 127 → vel ≤ 127 →
          SoundEngine.zoneMatches (SF2.buildZone gens) note vel = true) := by
  intro gens
  have hk0 : ∀ (h : ∀ g ∈ gens, g.type ≠ 43),
      (SF2.buildZone gens).keyRange = ⟨0, 127⟩ := by
    intro h
    have h2 := buildZone_foldl_keyRange gens
      { keyRange := ⟨0, 127⟩, velRange := ⟨0, 127⟩, generators := {} } h
    simpa [SF2.buildZone] using h2
  have hv0 : ∀ (h : ∀ g ∈ gens, g.type ≠ 44),
      (SF2.buildZone gens).velRange = ⟨0, 127⟩ := by
    intro h
    have h2 := buildZone_foldl_velRange gens
      { keyRange := ⟨0, 127⟩, velRange := ⟨0, 127⟩, generators := {} } h
    simpa [SF2.buildZone] using h2
  refine ⟨hk0, hv0, ?_⟩
  · intro h note vel hn hv
    have hk := hk0 (fun g hg => (h g hg).1)
    have hw := hv0 (fun g hg => (h g hg).2)
    simp [SoundEngine.zoneMatches, hk, hw, hn, hv]

/-- Witness for C10: a lone pan generator leaves both ranges at 0..127 and the
zone matches middle C at velocity 100. -/
theorem c10_zone_default_ranges_witness :
    (SF2.buildZone [⟨17, .num 500⟩]).keyRange = ⟨0, 127⟩ ∧
    (SF2.buildZone [⟨17, .num 500⟩]).velRange = ⟨0, 127⟩ ∧
    SoundEngine.zoneMatches (SF2.buildZone [⟨17, .num 500⟩]) 60 100 = true :=
  ⟨(c10_zone_default_ranges [⟨17, .num 500⟩]).1 (by decide),
   (c10_zone_default_ranges [⟨17, .num 500⟩]).2.1 (by decide),
   (c10_zone_default_ranges [⟨17, .num 500⟩]).2.2 (by decide) 60 100
     (by decide) (by decide)⟩

/-- A voice already releasing is left untouched by the release step and
produces no commands. -/
theorem releaseVoiceStep_of_releasing (rel : Option ℤ → ℚ) (gain : Nat → ℚ)
    (t : ℚ) (v : SoundEngine.EVoice) (h : v.isReleasing = true) :
    SoundEngine.releaseVoiceStep rel gain t v = (v, []) := by
  simp [SoundEngine.releaseVoiceStep, h]

/-- After the release step the voice is releasing. -/
theorem releaseVoiceStep_isReleasing (rel : Option ℤ → ℚ) (gain : Nat → ℚ)
    (t : ℚ) (v : SoundEngine.EVoice) :
    ((SoundEngine.releaseVoiceStep rel gain t v).1).isReleasing = true := by
  by_cases h : v.isReleasing = true
  · simp [SoundEngine.releaseVoiceStep, h]
  · simp only [Bool.not_eq_true] at h
    simp [SoundEngine.releaseVoiceStep, h]

/-- Reading back the mutated note entry: when the update sends the empty
array to itself, the read of the updated registry is the update of the read. -/
theorem regGet_regMapAt_self (reg : List (Nat × List SoundEngine.EVoice))
    (note : Nat) (f : List SoundEngine.EVoice → List SoundEngine.EVoice)
    (hf : f [] = []) :
    SoundEngine.regGet (SoundEngine.regMapAt reg note f) note =
      f (SoundEngine.regGet reg note) := by
  induction reg with
  | nil => simp [SoundEngine.regGet, SoundEngine.regMapAt, hf]
  | cons p rest ih =>
    by_cases hp : p.1 = note
    · simp [SoundEngine.regGet, SoundEngine.regMapAt, List.find?, hp]
    · simpa [SoundEngine.regGet, SoundEngine.regMapAt, List.find?, hp] using ih

/-- The registry search after a note mutation is the mapped search result. -/
theorem find?_regMapAt (reg : List (Nat × List SoundEngine.EVoice))
    (note m : Nat) (f : List SoundEngine.EVoice → List SoundEngine.EVoice) :
    List.find? (fun p => p.1 = m) (SoundEngine.regMapAt reg note f) =
      (List.find? (fun p => p.1 = m) reg).map
        (fun p => if p.1 = note then (p.1, f p.2) else p) := by
  unfold SoundEngine.regMapAt
  rw [List.find?_map]
  have hpred : ((fun p : Nat × List SoundEngine.EVoice => decide (p.1 = m)) ∘
      (fun p : Nat × List SoundEngine.EVoice =>
        if p.1 = note then (p.1, f p.2) else p)) =
      (fun p : Nat × List SoundEngine.EVoice => decide (p.1 = m)) := by
    funext p
    by_cases hp : p.1 = note <;> simp [hp]
  rw [hpred]

/-- Reading any other note is unchanged by the mutation. -/
theorem regGet_regMapAt_ne (reg : List (Nat × List SoundEngine.EVoice))
    (note m : Nat) (f : List SoundEngine.EVoice → List SoundEngine.EVoice)
    (hm : m ≠ note) :
    SoundEngine.regGet (SoundEngine.regMapAt reg note f) m =
      SoundEngine.regGet reg m := by
  unfold SoundEngine.regGet
  rw [find?_regMapAt]
  cases h : List.find? (fun p => p.1 = m) reg with
  | none => rfl
  | some p =>
    have hp := List.find?_some h
    have hpm : p.1 = m := by simpa using hp
    have hpn : ¬(p.1 = note) := by rw [hpm]; exact hm
    simp [hpn]

/-- Two successive mutations of the same note entry compose. -/
theorem regMapAt_regMapAt (reg : List (Nat × List SoundEngine.EVoice))
    (note : Nat) (f g : List SoundEngine.EVoice → List SoundEngine.EVoice) :
    SoundEngine.regMapAt (SoundEngine.regMapAt reg note f) note g =
      SoundEngine.regMapAt reg note (fun l => g (f l)) := by
  induction reg with
  | nil => rfl
  | cons p rest ih =>
    by_cases hp : p.1 = note
    · simp [SoundEngine.regMapAt, hp] at ih ⊢
      exact ih
    · simp [SoundEngine.regMapAt, hp] at ih ⊢
      exact ih

/-- A flat map over elements that all produce nothing is empty. -/
theorem flatMap_nil_of_forall {α β : Type} (l : List α) (f : α → List β)
    (h : ∀ x ∈ l, f x = []) : l.flatMap f = [] := by
  induction l with
  | nil => rfl
  | cons a rest ih =>
    rw [List.flatMap_cons, h a (List.mem_cons_self _ _),
      ih (fun x hx => h x (List.mem_cons_of_mem _ hx)), List.nil_append]

/-- Mutating the same entry with pointwise-equal updates gives the same
registry. -/
theorem regMapAt_congr (reg : List (Nat × List SoundEngine.EVoice)) (note : Nat)
    (f g : List SoundEngine.EVoice → List SoundEngine.EVoice)
    (h : ∀ l, f l = g l) :
    SoundEngine.regMapAt reg note f = SoundEngine.regMapAt reg note g := by
  have : f = g := funext h
  rw [this]

/-- C9: releasing is idempotent.  A voice already releasing is skipped by the
release step with no gain automation and no stop scheduling; the step sets
the flag (so it becomes true exactly once); and a second releaseNote on the
note is a no-op on the state, emitting no commands at all. -/
theorem c9_release_idempotent :
    (∀ (rel : Option ℤ → ℚ) (gain : Nat → ℚ) (t : ℚ) (v : SoundEngine.EVoice),
      v.isReleasing = true →
        SoundEngine.releaseVoiceStep rel gain t v = (v, [])) ∧
    (∀ (rel : Option ℤ → ℚ) (gain : Nat → ℚ) (t : ℚ) (v : SoundEngine.EVoice),
      ((SoundEngine.releaseVoiceStep rel gain t v).1).isReleasing = true) ∧
    (∀ (rel rel2 : Option ℤ → ℚ) (gain gain2 : Nat → ℚ) (t t2 : ℚ)
        (st : SoundEngine.State) (note : Nat),
      SoundEngine.releaseNote rel2 gain2 t2
          ((SoundEngine.releaseNote rel gain t st note).1) note =
        ((SoundEngine.releaseNote rel gain t st note).1, [])) := by
  refine ⟨releaseVoiceStep_of_releasing, releaseVoiceStep_isReleasing, ?_⟩
  intro rel rel2 gain gain2 t t2 st note
  by_cases h0 : SoundEngine.regGet st.voices note = []
  · simp [SoundEngine.releaseNote, h0]
  · have hstep1 : (SoundEngine.releaseNote rel gain t st note).1 =
        { st with voices := SoundEngine.regMapAt st.voices note (fun vs =>
            vs.map (fun v => (SoundEngine.releaseVoiceStep rel gain t v).1)) } := by
      simp [SoundEngine.releaseNote, h0]
    have hget : SoundEngine.regGet ((SoundEngine.releaseNote rel gain t st note).1).voices note =
        (SoundEngine.regGet st.voices note).map
          (fun v => (SoundEngine.releaseVoiceStep rel gain t v).1) := by
      rw [hstep1]
      exact regGet_regMapAt_self _ _ _ rfl
    have hne : SoundEngine.regGet ((SoundEngine.releaseNote rel gain t st note).1).voices note ≠ [] := by
      rw [hget]
      simpa using h0
    have hall : ∀ v ∈ SoundEngine.regGet
        ((SoundEngine.releaseNote rel gain t st note).1).voices note,
        v.isReleasing = true := by
      rw [hget]
      intro v hv
      rcases List.mem_map.mp hv with ⟨w, _, rfl⟩
      exact releaseVoiceStep_isReleasing rel gain t w
    have hcmds : (SoundEngine.regGet
        ((SoundEngine.releaseNote rel gain t st note).1).voices note).flatMap
          (fun v => (SoundEngine.releaseVoiceStep rel2 gain2 t2 v).2) = [] := by
      apply flatMap_nil_of_forall
      intro v hv
      rw [releaseVoiceStep_of_releasing rel2 gain2 t2 v (hall v hv)]
    have hmap : SoundEngine.regMapAt
        ((SoundEngine.releaseNote rel gain t st note).1).voices note
          (fun vs => vs.map
            (fun v => (SoundEngine.releaseVoiceStep rel2 gain2 t2 v).1)) =
        ((SoundEngine.releaseNote rel gain t st note).1).voices := by
      rw [hstep1]
      rw [regMapAt_regMapAt]
      apply regMapAt_congr
      intro l
      rw [List.map_map]
      apply List.map_congr_left
      intro v _
      simp only [Function.comp_apply]
      rw [releaseVoiceStep_of_releasing rel2 gain2 t2 _
        (releaseVoiceStep_isReleasing rel gain t v)]
    obtain ⟨st1, hst1⟩ : ∃ st1, (SoundEngine.releaseNote rel gain t st note).1 = st1 :=
      ⟨_, rfl⟩
    rw [hst1] at hne hcmds hmap ⊢
    have hsecond : SoundEngine.releaseNote rel2 gain2 t2 st1 note =
        ({ st1 with voices := SoundEngine.regMapAt st1.voices note (fun vs =>
             vs.map (fun v => (SoundEngine.releaseVoiceStep rel2 gain2 t2 v).1)) },
         (SoundEngine.regGet st1.voices note).flatMap
           (fun v => (SoundEngine.releaseVoiceStep rel2 gain2 t2 v).2)) := by
      simp [SoundEngine.releaseNote, hne]
    rw [hsecond, hmap, hcmds]

/-- Witness for C9: a voice already releasing is returned unchanged with no
commands. -/
theorem c9_release_idempotent_witness :
    SoundEngine.releaseVoiceStep (fun _ => (1 : ℚ)) (fun _ => (1 : ℚ)) 0
        { id := 0, midiNote := 60, velocity := 100, startTime := 0,
          isReleasing := true } =
      ({ id := 0, midiNote := 60, velocity := 100, startTime := 0,
         isReleasing := true }, []) :=
  c9_release_idempotent.1 (fun _ => (1 : ℚ)) (fun _ => (1 : ℚ)) 0 _ rfl

/-- After releaseNote on a note, every voice registered under that note is
releasing. -/
theorem releaseNote_all_releasing (rel : Option ℤ → ℚ) (gain : Nat → ℚ)
    (t : ℚ) (st : SoundEngine.State) (note : Nat) :
    ∀ v ∈ SoundEngine.regGet
        ((SoundEngine.releaseNote rel gain t st note).1).voices note,
      v.isReleasing = true := by
  by_cases h0 : SoundEngine.regGet st.voices note = []
  · simp [SoundEngine.releaseNote, h0]
  · have hstep1 : (SoundEngine.releaseNote rel gain t st note).1 =
        { st with voices := SoundEngine.regMapAt st.voices note (fun vs =>
            vs.map (fun v => (SoundEngine.releaseVoiceStep rel gain t v).1)) } := by
      simp [SoundEngine.releaseNote, h0]
    rw [hstep1]
    intro v hv
    rw [regGet_regMapAt_self _ _ _ rfl] at hv
    rcases List.mem_map.mp hv with ⟨w, _, rfl⟩
    exact releaseVoiceStep_isReleasing rel gain t w

/-- releaseNote never takes a voice out of the releasing set, at any note. -/
theorem releaseNote_preserves_releasing (rel : Option ℤ → ℚ) (gain : Nat → ℚ)
    (t : ℚ) (st : SoundEngine.State) (note m : Nat)
    (h : ∀ v ∈ SoundEngine.regGet st.voices m, v.isReleasing = true) :
    ∀ v ∈ SoundEngine.regGet
        ((SoundEngine.releaseNote rel gain t st note).1).voices m,
      v.isReleasing = true := by
  by_cases hm : m = note
  · subst hm
    exact releaseNote_all_releasing rel gain t st m
  · by_cases h0 : SoundEngine.regGet st.voices note = []
    · simpa [SoundEngine.releaseNote, h0] using h
    · have hstep1 : (SoundEngine.releaseNote rel gain t st note).1 =
          { st with voices := SoundEngine.regMapAt st.voices note (fun vs =>
              vs.map (fun v => (SoundEngine.releaseVoiceStep rel gain t v).1)) } := by
        simp [SoundEngine.releaseNote, h0]
      rw [hstep1]
      intro v hv
      rw [regGet_regMapAt_ne _ _ _ _ hm] at hv
      exact h v hv

/-- The release fold preserves an all-releasing note. -/
theorem releaseFold_preserves_releasing (rel : Option ℤ → ℚ) (gain : Nat → ℚ)
    (t : ℚ) (l : List Nat) (p : SoundEngine.State × List SoundEngine.AudioCmd)
    (m : Nat) (h : ∀ v ∈ SoundEngine.regGet p.1.voices m, v.isReleasing = true) :
    ∀ v ∈ SoundEngine.regGet
        ((l.foldl (SoundEngine.releaseAccStep rel gain t) p).1).voices m,
      v.isReleasing = true := by
  induction l generalizing p with
  | nil => exact h
  | cons a rest ih =>
    rw [List.foldl_cons]
    exact ih _ (releaseNote_preserves_releasing rel gain t p.1 a m h)

/-- The release fold releases every note it visits. -/
theorem releaseFold_all_releasing (rel : Option ℤ → ℚ) (gain : Nat → ℚ)
    (t : ℚ) (l : List Nat) (p : SoundEngine.State × List SoundEngine.AudioCmd) :
    ∀ n ∈ l, ∀ v ∈ SoundEngine.regGet
        ((l.foldl (SoundEngine.releaseAccStep rel gain t) p).1).voices n,
      v.isReleasing = true := by
  induction l generalizing p with
  | nil => intro n hn; cases hn
  | cons a rest ih =>
    intro n hn
    rw [List.foldl_cons]
    rcases List.mem_cons.mp hn with rfl | hn2
    · exact releaseFold_preserves_releasing rel gain t rest _ n
        (releaseNote_all_releasing rel gain t p.1 n)
    · exact ih _ n hn2

/-- C8: with the pedal down, a noteOff on a live note only records the note in
the sustain set (raising the sustained count when the note is new), leaving
the voices untouched; with the pedal up, a noteOff releases the voices of the
note immediately; and raising the pedal releases every sustained note and
clears the sustain set, so the reported sustained count returns to 0. -/
theorem c8_sustain_pedal_semantics :
    (∀ (rel : Option ℤ → ℚ) (gain : Nat → ℚ) (t : ℚ) (st : SoundEngine.State)
        (note : Nat),
      st.sustainPedal = true → SoundEngine.regGet st.voices note ≠ [] →
        SoundEngine.noteOff rel gain t st note =
          ({ st with sustainedNotes := SoundEngine.addSet note st.sustainedNotes },
           []) ∧
        (note ∉ st.sustainedNotes →
          (SoundEngine.getStats
              (SoundEngine.noteOff rel gain t st note).1).sustainedNotes =
            (SoundEngine.getStats st).sustainedNotes + 1)) ∧
    (∀ (rel : Option ℤ → ℚ) (gain : Nat → ℚ) (t : ℚ) (st : SoundEngine.State)
        (note : Nat),
      st.sustainPedal = false →
        ∀ v ∈ SoundEngine.regGet
            ((SoundEngine.noteOff rel gain t st note).1).voices note,
          v.isReleasing = true) ∧
    (∀ (rel : Option ℤ → ℚ) (gain : Nat → ℚ) (t : ℚ) (st : SoundEngine.State),
      ((SoundEngine.setSustainPedal rel gain t st false).1).sustainedNotes = [] ∧
      (SoundEngine.getStats
          (SoundEngine.setSustainPedal rel gain t st false).1).sustainedNotes = 0 ∧
      ∀ n ∈ st.sustainedNotes,
        ∀ v ∈ SoundEngine.regGet
            ((SoundEngine.setSustainPedal rel gain t st false).1).voices n,
          v.isReleasing = true) := by
  refine ⟨?_, ?_, ?_⟩
  · intro rel gain t st note hped hv
    constructor
    · simp [SoundEngine.noteOff, hv, hped]
    · intro hmem
      have heq : SoundEngine.noteOff rel gain t st note =
          ({ st with sustainedNotes := SoundEngine.addSet note st.sustainedNotes },
           []) := by
        simp [SoundEngine.noteOff, hv, hped]
      rw [heq]
      simp [SoundEngine.getStats, SoundEngine.addSet, hmem]
  · intro rel gain t st note hped
    by_cases h0 : SoundEngine.regGet st.voices note = []
    · simp [SoundEngine.noteOff, h0]
    · have heq : SoundEngine.noteOff rel gain t st note =
          SoundEngine.releaseNote rel gain t st note := by
        simp [SoundEngine.noteOff, h0, hped]
      rw [heq]
      exact releaseNote_all_releasing rel gain t st note
  · intro rel gain t st
    have heq : (SoundEngine.setSustainPedal rel gain t st false).1 =
        { (st.sustainedNotes.foldl (SoundEngine.releaseAccStep rel gain t)
            ({ st with sustainPedal := false }, [])).1 with sustainedNotes := [] } := by
      simp [SoundEngine.setSustainPedal]
    refine ⟨by rw [heq], by rw [heq]; simp [SoundEngine.getStats], ?_⟩
    intro n hn v hv
    rw [heq] at hv
    exact releaseFold_all_releasing rel gain t st.sustainedNotes _ n hn v hv

/-- An empty bank value for concrete engine states. -/
def emptyBank : SF2.SF2Data :=
  { info := {}, samples := [], presets := [], instruments := [] }

/-- A concrete engine state with one live voice on note 64, pedal down. -/
def sustainDemoState : SoundEngine.State :=
  { sf2Data := emptyBank,
    voices := [(64, [{ id := 0, midiNote := 64, velocity := 100, startTime := 0 }])],
    sustainPedal := true, sustainedNotes := [], maxPolyphony := 64 }

/-- Witness for C8: at the concrete pedal-down state, noteOff(64) records the
note and raises the sustained count by one. -/
theorem c8_sustain_pedal_semantics_witness :
    SoundEngine.noteOff (fun _ => (1 : ℚ)) (fun _ => (1 : ℚ)) 0 sustainDemoState 64 =
      ({ sustainDemoState with
           sustainedNotes := SoundEngine.addSet 64 sustainDemoState.sustainedNotes },
       []) ∧
    (SoundEngine.getStats
        (SoundEngine.noteOff (fun _ => (1 : ℚ)) (fun _ => (1 : ℚ)) 0
          sustainDemoState 64).1).sustainedNotes =
      (SoundEngine.getStats sustainDemoState).sustainedNotes + 1 :=
  ⟨(c8_sustain_pedal_semantics.1 (fun _ => (1 : ℚ)) (fun _ => (1 : ℚ)) 0
      sustainDemoState 64 rfl (by decide)).1,
   (c8_sustain_pedal_semantics.1 (fun _ => (1 : ℚ)) (fun _ => (1 : ℚ)) 0
      sustainDemoState 64 rfl (by decide)).2 (by decide)⟩

/-- C2 evaluation at the failing inputs: with two equally old voices of
velocity 10 and 100 and none releasing, the scan selects the velocity-100
voice, not the velocity-10 one; with two equal-velocity voices the scan
selects the newer voice, not the older; and the selected voice is the single
one stopped and removed.  The priority formula subtracts velocity and adds
10 points per second of age into a minimized score, so high-velocity and
recent voices are stolen first, contradicting the stated (and commented)
intent that the lowest-velocity, oldest voice is stolen first. -/
theorem c2_steal_priority_eval :
    SoundEngine.stealScan 0
        [{ id := 0, midiNote := 60, velocity := 10, startTime := 0 },
         { id := 1, midiNote := 61, velocity := 100, startTime := 0 }] =
      some { id := 1, midiNote := 61, velocity := 100, startTime := 0 } ∧
    SoundEngine.stealScan 10
        [{ id := 2, midiNote := 60, velocity := 100, startTime := 0 },
         { id := 3, midiNote := 61, velocity := 100, startTime := 5 }] =
      some { id := 3, midiNote := 61, velocity := 100, startTime := 5 } ∧
    (SoundEngine.stealOldestVoice 0
        { sf2Data := emptyBank,
          voices := [(60, [{ id := 0, midiNote := 60, velocity := 10, startTime := 0 }]),
                     (61, [{ id := 1, midiNote := 61, velocity := 100, startTime := 0 }])],
          maxPolyphony := 2 }).1.voices =
      [(60, [{ id := 0, midiNote := 60, velocity := 10, startTime := 0 }])] := by
  refine ⟨?_, ?_, ?_⟩
  · norm_num [SoundEngine.stealScan, SoundEngine.stealScanStep,
      SoundEngine.voicePriority]
  · norm_num [SoundEngine.stealScan, SoundEngine.stealScanStep,
      SoundEngine.voicePriority]
  · norm_num [SoundEngine.stealOldestVoice, SoundEngine.stealScan,
      SoundEngine.stealScanStep, SoundEngine.voicePriority,
      SoundEngine.flattenReg, SoundEngine.removeVoice,
      SoundEngine.removeVoiceReg, SoundEngine.removeSet, List.erase]

/-- The steal scan returns either its accumulator or a voice of the list. -/
theorem stealFold_mem (t : ℚ) :
    ∀ (vs : List SoundEngine.EVoice) (acc : Option (SoundEngine.EVoice × ℚ))
      (r : SoundEngine.EVoice × ℚ),
      vs.foldl (SoundEngine.stealScanStep t) acc = some r →
        acc = some r ∨ r.1 ∈ vs := by
  intro vs
  induction vs with
  | nil => intro acc r h; exact Or.inl h
  | cons a rest ih =>
    intro acc r h
    rw [List.foldl_cons] at h
    rcases ih _ r h with h2 | h2
    · cases acc with
      | none =>
        simp [SoundEngine.stealScanStep] at h2
        subst h2
        exact Or.inr (List.mem_cons_self _ _)
      | some p =>
        by_cases hc : SoundEngine.voicePriority t a < p.2
        · simp [SoundEngine.stealScanStep, hc] at h2
          subst h2
          exact Or.inr (List.mem_cons_self _ _)
        · simp [SoundEngine.stealScanStep, hc] at h2
          exact Or.inl (by rw [h2])
    · exact Or.inr (List.mem_cons_of_mem _ h2)

/-- The steal scan starting from a present accumulator stays present. -/
theorem stealFold_isSome (t : ℚ) :
    ∀ (vs : List SoundEngine.EVoice) (acc : Option (SoundEngine.EVoice × ℚ)),
      acc.isSome = true →
      (vs.foldl (SoundEngine.stealScanStep t) acc).isSome = true := by
  intro vs
  induction vs with
  | nil => intro acc h; exact h
  | cons a rest ih =>
    intro acc h
    rw [List.foldl_cons]
    apply ih
    cases acc with
    | none => simp at h
    | some p =>
      by_cases hc : SoundEngine.voicePriority t a < p.2 <;>
        simp [SoundEngine.stealScanStep, hc]

/-- A selected steal target is a member of the scanned list. -/
theorem stealScan_mem (t : ℚ) (vs : List SoundEngine.EVoice)
    (v : SoundEngine.EVoice) (h : SoundEngine.stealScan t vs = some v) :
    v ∈ vs := by
  unfold SoundEngine.stealScan at h
  cases hf : vs.foldl (SoundEngine.stealScanStep t) none with
  | none => rw [hf] at h; simp at h
  | some r =>
    rw [hf] at h
    simp at h
    rcases stealFold_mem t vs none r hf with h2 | h2
    · cases h2
    · rw [← h]; exact h2

/-- A nonempty voice list always yields a steal target. -/
theorem stealScan_isSome (t : ℚ) (a : SoundEngine.EVoice)
    (rest : List SoundEngine.EVoice) :
    (SoundEngine.stealScan t (a :: rest)).isSome = true := by
  unfold SoundEngine.stealScan
  rw [List.foldl_cons]
  have h := stealFold_isSome t rest (SoundEngine.stealScanStep t none a)
    (by simp [SoundEngine.stealScanStep])
  cases hf : rest.foldl (SoundEngine.stealScanStep t) (SoundEngine.stealScanStep t none a) with
  | none => rw [hf] at h; simp at h
  | some r => simp

/-- Total voice count as the length of the flattened registry. -/
theorem totalVoices_eq_length_flatten (reg : List (Nat × List SoundEngine.EVoice)) :
    SoundEngine.totalVoices reg = (SoundEngine.flattenReg reg).length := by
  induction reg with
  | nil => rfl
  | cons p rest ih =>
    simp [SoundEngine.totalVoices, SoundEngine.flattenReg] at ih ⊢
    omega

/-- Removing a registered voice reduces the total count by exactly one. -/
theorem totalVoices_removeVoiceReg (reg : List (Nat × List SoundEngine.EVoice))
    (v : SoundEngine.EVoice) (h : v ∈ SoundEngine.flattenReg reg) :
    SoundEngine.totalVoices (SoundEngine.removeVoiceReg reg v).1 + 1 =
      SoundEngine.totalVoices reg := by
  induction reg with
  | nil => simp [SoundEngine.flattenReg] at h
  | cons p rest ih =>
    by_cases hv : v ∈ p.2
    · have hlen : (p.2.erase v).length + 1 = p.2.length := by
        rw [List.length_erase_of_mem hv]
        have : p.2.length ≠ 0 := by
          intro h0
          rw [List.length_eq_zero] at h0
          rw [h0] at hv
          cases hv
        omega
      by_cases he : p.2.erase v = []
      · simp [SoundEngine.removeVoiceReg, hv, he, SoundEngine.totalVoices]
        rw [he] at hlen
        simp at hlen
        simp [SoundEngine.totalVoices] at *
        omega
      · simp [SoundEngine.removeVoiceReg, hv, he, SoundEngine.totalVoices] at *
        omega
    · have h2 : v ∈ SoundEngine.flattenReg rest := by
        simp [SoundEngine.flattenReg] at h ⊢
        rcases h with h | h
        · exact absurd h hv
        · exact h
      have := ih h2
      simp [SoundEngine.removeVoiceReg, hv, SoundEngine.totalVoices] at *
      omega

/-- Removing never increases the total count. -/
theorem totalVoices_removeVoiceReg_le (reg : List (Nat × List SoundEngine.EVoice))
    (v : SoundEngine.EVoice) :
    SoundEngine.totalVoices (SoundEngine.removeVoiceReg reg v).1 ≤
      SoundEngine.totalVoices reg := by
  induction reg with
  | nil => simp [SoundEngine.removeVoiceReg]
  | cons p rest ih =>
    by_cases hv : v ∈ p.2
    · have := List.length_erase_of_mem hv
      by_cases he : p.2.erase v = [] <;>
        simp [SoundEngine.removeVoiceReg, hv, he, SoundEngine.totalVoices] at * <;>
        omega
    · simp [SoundEngine.removeVoiceReg, hv, SoundEngine.totalVoices] at *
      omega

/-- Stealing from a registry holding at least one voice removes exactly one
voice. -/
theorem totalVoices_steal (t : ℚ) (st : SoundEngine.State)
    (h : 1 ≤ SoundEngine.totalVoices st.voices) :
    SoundEngine.totalVoices ((SoundEngine.stealOldestVoice t st).1).voices + 1 =
      SoundEngine.totalVoices st.voices := by
  have hne : SoundEngine.flattenReg st.voices ≠ [] := by
    intro h0
    rw [totalVoices_eq_length_flatten, h0] at h
    simp at h
  obtain ⟨a, rest, har⟩ : ∃ a rest, SoundEngine.flattenReg st.voices = a :: rest := by
    cases hfl : SoundEngine.flattenReg st.voices with
    | nil => exact absurd hfl hne
    | cons a rest => exact ⟨a, rest, rfl⟩
  have hsome : (SoundEngine.stealScan t (SoundEngine.flattenReg st.voices)).isSome = true := by
    rw [har]; exact stealScan_isSome t a rest
  obtain ⟨target, htarget⟩ := Option.isSome_iff_exists.mp hsome
  have hmem : target ∈ SoundEngine.flattenReg st.voices :=
    stealScan_mem t _ target htarget
  simp only [SoundEngine.stealOldestVoice, htarget, SoundEngine.removeVoice]
  exact totalVoices_removeVoiceReg st.voices target hmem

/-- Stealing keeps the polyphony limit field. -/
theorem steal_maxPolyphony (t : ℚ) (st : SoundEngine.State) :
    ((SoundEngine.stealOldestVoice t st).1).maxPolyphony = st.maxPolyphony := by
  unfold SoundEngine.stealOldestVoice
  cases SoundEngine.stealScan t (SoundEngine.flattenReg st.voices) with
  | none => rfl
  | some target => rfl

/-- The polyphony check leaves strictly fewer voices than the limit when the
limit is positive and was not already exceeded. -/
theorem checkPolyphonyLimit_lt (t : ℚ) (st : SoundEngine.State)
    (h1 : 1 ≤ st.maxPolyphony)
    (h2 : SoundEngine.totalVoices st.voices ≤ st.maxPolyphony) :
    SoundEngine.totalVoices ((SoundEngine.checkPolyphonyLimit t st).1).voices + 1 ≤
      st.maxPolyphony := by
  unfold SoundEngine.checkPolyphonyLimit
  by_cases hc : SoundEngine.totalVoices st.voices ≥ st.maxPolyphony
  · rw [if_pos hc]
    have := totalVoices_steal t st (le_trans h1 hc)
    omega
  · rw [if_neg hc]
    show SoundEngine.totalVoices st.voices + 1 ≤ st.maxPolyphony
    omega

/-- The polyphony check keeps the limit field. -/
theorem checkPolyphonyLimit_maxPolyphony (t : ℚ) (st : SoundEngine.State) :
    ((SoundEngine.checkPolyphonyLimit t st).1).maxPolyphony = st.maxPolyphony := by
  unfold SoundEngine.checkPolyphonyLimit
  by_cases hc : SoundEngine.totalVoices st.voices ≥ st.maxPolyphony
  · rw [if_pos hc]; exact steal_maxPolyphony t st
  · rw [if_neg hc]

/-- Pushing a voice adds exactly one to the total count. -/
theorem totalVoices_regPush (reg : List (Nat × List SoundEngine.EVoice))
    (note : Nat) (v : SoundEngine.EVoice) :
    SoundEngine.totalVoices (SoundEngine.regPush reg note v) =
      SoundEngine.totalVoices reg + 1 := by
  induction reg with
  | nil => simp [SoundEngine.regPush, SoundEngine.totalVoices]
  | cons p rest ih =>
    by_cases hp : p.1 = note <;>
      simp [SoundEngine.regPush, hp, SoundEngine.totalVoices] at * <;>
      omega

/-- Mapping the voice arrays entrywise keeps the total count. -/
theorem totalVoices_regMapAt_map (reg : List (Nat × List SoundEngine.EVoice))
    (note : Nat) (f : SoundEngine.EVoice → SoundEngine.EVoice) :
    SoundEngine.totalVoices
        (SoundEngine.regMapAt reg note (fun vs => vs.map f)) =
      SoundEngine.totalVoices reg := by
  induction reg with
  | nil => rfl
  | cons p rest ih =>
    by_cases hp : p.1 = note <;>
      simp [SoundEngine.regMapAt, hp, SoundEngine.totalVoices] at * <;>
      omega

/-- releaseNote changes neither the total count nor the limit field nor the
sustain state. -/
theorem releaseNote_state_shape (rel : Option ℤ → ℚ) (gain : Nat → ℚ) (t : ℚ)
    (st : SoundEngine.State) (note : Nat) :
    SoundEngine.totalVoices ((SoundEngine.releaseNote rel gain t st note).1).voices =
        SoundEngine.totalVoices st.voices ∧
      ((SoundEngine.releaseNote rel gain t st note).1).maxPolyphony =
        st.maxPolyphony := by
  by_cases h0 : SoundEngine.regGet st.voices note = []
  · simp [SoundEngine.releaseNote, h0]
  · have hstep1 : (SoundEngine.releaseNote rel gain t st note).1 =
        { st with voices := SoundEngine.regMapAt st.voices note (fun vs =>
            vs.map (fun v => (SoundEngine.releaseVoiceStep rel gain t v).1)) } := by
      simp [SoundEngine.releaseNote, h0]
    rw [hstep1]
    exact ⟨totalVoices_regMapAt_map _ _ _, rfl⟩

/-- The release fold changes neither the total count nor the limit field. -/
theorem releaseFold_state_shape (rel : Option ℤ → ℚ) (gain : Nat → ℚ) (t : ℚ)
    (l : List Nat) (p : SoundEngine.State × List SoundEngine.AudioCmd) :
    SoundEngine.totalVoices
        ((l.foldl (SoundEngine.releaseAccStep rel gain t) p).1).voices =
        SoundEngine.totalVoices p.1.voices ∧
      ((l.foldl (SoundEngine.releaseAccStep rel gain t) p).1).maxPolyphony =
        p.1.maxPolyphony := by
  induction l generalizing p with
  | nil => exact ⟨rfl, rfl⟩
  | cons a rest ih =>
    rw [List.foldl_cons]
    have h1 := releaseNote_state_shape rel gain t p.1 a
    have h2 := ih (SoundEngine.releaseAccStep rel gain t p a)
    simp [SoundEngine.releaseAccStep] at h2
    exact ⟨h2.1.trans h1.1, h2.2.trans h1.2⟩

/-- noteOn never pushes the registry above a positive polyphony limit. -/
theorem noteOn_totalVoices_le (gain : Nat → ℚ) (t : ℚ) (st : SoundEngine.State)
    (note vel : Nat) (ok : Bool) (vid : Nat)
    (h1 : 1 ≤ st.maxPolyphony)
    (h2 : SoundEngine.totalVoices st.voices ≤ st.maxPolyphony) :
    SoundEngine.totalVoices
        ((SoundEngine.noteOn gain t st note vel ok vid).1).voices ≤
        st.maxPolyphony ∧
      ((SoundEngine.noteOn gain t st note vel ok vid).1).maxPolyphony =
        st.maxPolyphony := by
  unfold SoundEngine.noteOn
  by_cases hr : note < 21 ∨ note > 108
  · rw [if_pos hr]; exact ⟨h2, rfl⟩
  · rw [if_neg hr]
    by_cases hv : vel > 127
    · rw [if_pos hv]; exact ⟨h2, rfl⟩
    · rw [if_neg hv]
      by_cases hz : SoundEngine.selectZones st.sf2Data note vel = []
      · rw [if_pos hz]; exact ⟨h2, rfl⟩
      · rw [if_neg hz]
        have hcp := checkPolyphonyLimit_lt t st h1 h2
        have hcm := checkPolyphonyLimit_maxPolyphony t st
        cases ok with
        | false => simpa using ⟨by omega, hcm⟩
        | true =>
          simp only []
          constructor
          · simpa [totalVoices_regPush] using by omega
          · simpa using hcm

/-- One engine event keeps the registry within a positive polyphony limit
and keeps the limit itself. -/
theorem applyEvent_totalVoices_le (rel : Option ℤ → ℚ) (gain : Nat → ℚ)
    (st : SoundEngine.State) (e : SoundEngine.Event)
    (h1 : 1 ≤ st.maxPolyphony)
    (h2 : SoundEngine.totalVoices st.voices ≤ st.maxPolyphony) :
    SoundEngine.totalVoices ((SoundEngine.applyEvent rel gain st e)).voices ≤
        st.maxPolyphony ∧
      (SoundEngine.applyEvent rel gain st e).maxPolyphony = st.maxPolyphony := by
  cases e with
  | evNoteOn t n vel ok vid =>
    exact noteOn_totalVoices_le gain t st n vel ok vid h1 h2
  | evNoteOff t n =>
    simp only [SoundEngine.applyEvent, SoundEngine.noteOff]
    by_cases hg : SoundEngine.regGet st.voices n = []
    · rw [if_pos hg]; exact ⟨h2, rfl⟩
    · rw [if_neg hg]
      by_cases hp : st.sustainPedal = true
      · simp [hp]; exact h2
      · simp only [Bool.not_eq_true] at hp
        simp [hp]
        have := releaseNote_state_shape rel gain t st n
        exact ⟨this.1.le.trans h2, this.2⟩
  | evPedal t d =>
    simp only [SoundEngine.applyEvent, SoundEngine.setSustainPedal]
    cases d with
    | true => exact ⟨h2, rfl⟩
    | false =>
      simp only [Bool.false_eq_true, if_false]
      have := releaseFold_state_shape rel gain t
        (st.sustainedNotes) ({ st with sustainPedal := false }, [])
      simp at this
      exact ⟨this.1.le.trans h2, this.2⟩
  | evEnded v =>
    simp only [SoundEngine.applyEvent, SoundEngine.removeVoice]
    exact ⟨(totalVoices_removeVoiceReg_le st.voices v).trans h2, trivial⟩
  | evAllOff t =>
    simp only [SoundEngine.applyEvent, SoundEngine.allNotesOff]
    have := releaseFold_state_shape rel gain t (st.voices.map Prod.fst) (st, [])
    simp at this
    exact ⟨this.1.le.trans h2, this.2⟩
  | evPanic =>
    simp [SoundEngine.applyEvent, SoundEngine.panic, SoundEngine.totalVoices]

/-- The constructed engine always has a positive polyphony limit (the
or-default maps an absent or zero configuration to 64). -/
theorem create_maxPolyphony_pos (sf2 : SF2.SF2Data) (cfg : Option Nat) :
    1 ≤ (SoundEngine.create sf2 cfg).maxPolyphony := by
  rcases cfg with _ | n
  · simp [SoundEngine.create]
  · cases n with
    | zero => simp [SoundEngine.create]
    | succ m => simp [SoundEngine.create]

/-- Run preserves the polyphony bound from any state satisfying it. -/
theorem run_totalVoices_le (rel : Option ℤ → ℚ) (gain : Nat → ℚ)
    (evts : List SoundEngine.Event) (st : SoundEngine.State)
    (h1 : 1 ≤ st.maxPolyphony)
    (h2 : SoundEngine.totalVoices st.voices ≤ st.maxPolyphony) :
    SoundEngine.totalVoices (SoundEngine.run rel gain st evts).voices ≤
        st.maxPolyphony ∧
      (SoundEngine.run rel gain st evts).maxPolyphony = st.maxPolyphony := by
  induction evts generalizing st with
  | nil => exact ⟨h2, rfl⟩
  | cons e rest ih =>
    have hstep := applyEvent_totalVoices_le rel gain st e h1 h2
    have := ih (SoundEngine.applyEvent rel gain st e)
      (by rw [hstep.2]; exact h1) (by rw [hstep.2]; exact hstep.1)
    rw [SoundEngine.run, List.foldl_cons] at *
    exact ⟨by rw [← hstep.2]; exact this.1, by rw [← hstep.2]; exact this.2⟩

/-- C3: the polyphony check steals exactly one voice when the registry is at
or above the limit and leaves the registry strictly below the limit before
the new voice is added, so a freshly constructed engine (default limit 64)
never exceeds its configured polyphony after any sequence of events and in
particular after any noteOn completes. -/
theorem c3_polyphony_never_exceeded :
    (∀ (t : ℚ) (st : SoundEngine.State),
      1 ≤ st.maxPolyphony →
      SoundEngine.totalVoices st.voices ≤ st.maxPolyphony →
        SoundEngine.totalVoices
            ((SoundEngine.checkPolyphonyLimit t st).1).voices + 1 ≤
          st.maxPolyphony) ∧
    (∀ (t : ℚ) (st : SoundEngine.State),
      st.maxPolyphony ≤ SoundEngine.totalVoices st.voices →
      1 ≤ st.maxPolyphony →
        SoundEngine.totalVoices
            ((SoundEngine.checkPolyphonyLimit t st).1).voices + 1 =
          SoundEngine.totalVoices st.voices) ∧
    (∀ (sf2 : SF2.SF2Data) (cfg : Option Nat) (rel : Option ℤ → ℚ)
        (gain : Nat → ℚ) (evts : List SoundEngine.Event),
      SoundEngine.totalVoices
          (SoundEngine.run rel gain (SoundEngine.create sf2 cfg) evts).voices ≤
        (SoundEngine.create sf2 cfg).maxPolyphony) := by
  refine ⟨checkPolyphonyLimit_lt, ?_, ?_⟩
  · intro t st hge h1
    unfold SoundEngine.checkPolyphonyLimit
    rw [if_pos hge]
    exact totalVoices_steal t st (le_trans h1 hge)
  · intro sf2 cfg rel gain evts
    exact (run_totalVoices_le rel gain evts (SoundEngine.create sf2 cfg)
      (create_maxPolyphony_pos sf2 cfg) (by simp [SoundEngine.create, SoundEngine.totalVoices])).1

/-- A concrete two-voice registry at its polyphony limit. -/
def polyDemoState : SoundEngine.State :=
  { sf2Data := emptyBank,
    voices := [(60, [{ id := 0, midiNote := 60, velocity := 10, startTime := 0 }]),
               (61, [{ id := 1, midiNote := 61, velocity := 100, startTime := 0 }])],
    maxPolyphony := 2 }

/-- Witness for C3: at the concrete limit-reached state, the check steals
exactly one voice and leaves room for the incoming one. -/
theorem c3_polyphony_never_exceeded_witness :
    SoundEngine.totalVoices
        ((SoundEngine.checkPolyphonyLimit 0 polyDemoState).1).voices + 1 =
      SoundEngine.totalVoices polyDemoState.voices ∧
    SoundEngine.totalVoices
        ((SoundEngine.checkPolyphonyLimit 0 polyDemoState).1).voices + 1 ≤
      polyDemoState.maxPolyphony :=
  ⟨c3_polyphony_never_exceeded.2.1 0 polyDemoState (by decide) (by decide),
   c3_polyphony_never_exceeded.1 0 polyDemoState (by decide) (by decide)⟩

/-- Map.set never adds more than one entry. -/
theorem cacheSet_length_le (c : List (Nat × SampleManager.CacheEntry))
    (id : Nat) (e : SampleManager.CacheEntry) :
    (SampleManager.cacheSet c id e).length ≤ c.length + 1 := by
  induction c with
  | nil => simp [SampleManager.cacheSet]
  | cons p rest ih =>
    by_cases hp : p.1 = id <;>
      simp [SampleManager.cacheSet, hp] <;> omega

/-- Map.set on a present key keeps the entry count. -/
theorem cacheSet_length_of_found (c : List (Nat × SampleManager.CacheEntry))
    (id : Nat) (e0 e : SampleManager.CacheEntry)
    (h : SampleManager.cacheFind c id = some e0) :
    (SampleManager.cacheSet c id e).length = c.length := by
  induction c with
  | nil => simp [SampleManager.cacheFind] at h
  | cons p rest ih =>
    by_cases hp : p.1 = id
    · simp [SampleManager.cacheSet, hp]
    · simp [SampleManager.cacheFind, List.find?, hp] at h
      simp [SampleManager.cacheSet, hp]
      exact ih (by simpa [SampleManager.cacheFind] using h)

/-- Map.delete of a present key removes exactly one entry. -/
theorem cacheDelete_length (c : List (Nat × SampleManager.CacheEntry))
    (id : Nat) (h : ∃ p ∈ c, p.1 = id) :
    (SampleManager.cacheDelete id c).length + 1 = c.length := by
  induction c with
  | nil => simp at h
  | cons p rest ih =>
    by_cases hp : p.1 = id
    · simp [SampleManager.cacheDelete, hp]
    · obtain ⟨q, hq, hq1⟩ := h
      rcases List.mem_cons.mp hq with rfl | hq2
      · exact absurd hq1 hp
      · simp [SampleManager.cacheDelete, hp]
        exact ih ⟨q, hq2, hq1⟩
/-- The eviction scan returns its accumulator or names an entry of the
cache together with that entry timestamp. -/
theorem findOldestAux_mem :
    ∀ (c : List (Nat × SampleManager.CacheEntry)) (acc : Option (Nat × Nat))
      (r : Nat × Nat),
      SampleManager.findOldestAux c acc = some r →
        acc = some r ∨ ∃ p ∈ c, p.1 = r.1 ∧ p.2.lastAccessed = r.2 := by
  intro c
  induction c with
  | nil => intro acc r h; exact Or.inl h
  | cons p rest ih =>
    intro acc r h
    simp only [SampleManager.findOldestAux] at h
    cases acc with
    | none =>
      rcases ih _ r h with h2 | h2
      · simp at h2
        exact Or.inr ⟨p, List.mem_cons_self _ _, by rw [← h2], by rw [← h2]⟩
      · obtain ⟨q, hq, hq2⟩ := h2
        exact Or.inr ⟨q, List.mem_cons_of_mem _ hq, hq2⟩
    | some a =>
      obtain ⟨oid, ot⟩ := a
      dsimp only at h
      by_cases hc : p.2.lastAccessed < ot
      · rw [if_pos hc] at h
        rcases ih _ r h with h2 | h2
        · simp at h2
          exact Or.inr ⟨p, List.mem_cons_self _ _, by rw [← h2], by rw [← h2]⟩
        · obtain ⟨q, hq, hq2⟩ := h2
          exact Or.inr ⟨q, List.mem_cons_of_mem _ hq, hq2⟩
      · rw [if_neg hc] at h
        rcases ih _ r h with h2 | h2
        · exact Or.inl h2
        · obtain ⟨q, hq, hq2⟩ := h2
          exact Or.inr ⟨q, List.mem_cons_of_mem _ hq, hq2⟩

/-- The eviction scan result is minimal among the scanned entries and the
accumulator. -/
theorem findOldestAux_min :
    ∀ (c : List (Nat × SampleManager.CacheEntry)) (acc : Option (Nat × Nat))
      (r : Nat × Nat),
      SampleManager.findOldestAux c acc = some r →
        (∀ p ∈ c, r.2 ≤ p.2.lastAccessed) ∧
        (∀ a, acc = some a → r.2 ≤ a.2) := by
  intro c
  induction c with
  | nil =>
    intro acc r h
    simp only [SampleManager.findOldestAux] at h
    refine ⟨fun p hp => absurd hp (List.not_mem_nil p), fun a ha => ?_⟩
    rw [ha] at h
    simp at h
    simp [h]
  | cons p rest ih =>
    intro acc r h
    simp only [SampleManager.findOldestAux] at h
    cases acc with
    | none =>
      have hres := ih _ r h
      have hacc : r.2 ≤ p.2.lastAccessed := hres.2 _ rfl
      refine ⟨fun q hq => ?_, fun a ha => by cases ha⟩
      rcases List.mem_cons.mp hq with rfl | hq2
      · exact hacc
      · exact hres.1 q hq2
    | some a =>
      obtain ⟨oid, ot⟩ := a
      dsimp only at h
      by_cases hc : p.2.lastAccessed < ot
      · rw [if_pos hc] at h
        have hres := ih _ r h
        have hacc : r.2 ≤ p.2.lastAccessed := hres.2 _ rfl
        refine ⟨fun q hq => ?_, fun b hb => ?_⟩
        · rcases List.mem_cons.mp hq with rfl | hq2
          · exact hacc
          · exact hres.1 q hq2
        · cases hb
          exact le_trans hacc (le_of_lt hc)
      · rw [if_neg hc] at h
        have hres := ih _ r h
        have hacc : r.2 ≤ ot := hres.2 _ rfl
        refine ⟨fun q hq => ?_, fun b hb => ?_⟩
        · rcases List.mem_cons.mp hq with rfl | hq2
          · exact le_trans hacc (le_of_not_lt hc)
          · exact hres.1 q hq2
        · cases hb
          exact hacc

/-- The eviction scan of a nonempty cache names an entry. -/
theorem findOldestAux_isSome :
    ∀ (c : List (Nat × SampleManager.CacheEntry)) (acc : Option (Nat × Nat)),
      acc.isSome = true →
      (SampleManager.findOldestAux c acc).isSome = true := by
  intro c
  induction c with
  | nil => intro acc h; exact h
  | cons p rest ih =>
    intro acc h
    simp only [SampleManager.findOldestAux]
    cases acc with
    | none => simp at h
    | some a =>
      obtain ⟨oid, ot⟩ := a
      dsimp only
      by_cases hc : p.2.lastAccessed < ot
      · rw [if_pos hc]; exact ih _ (by simp)
      · rw [if_neg hc]; exact ih _ (by simp)

/-- The eviction scan names a key present in the cache. -/
theorem findOldestId_mem (c : List (Nat × SampleManager.CacheEntry)) (oid : Nat)
    (h : SampleManager.findOldestId c = some oid) :
    ∃ p ∈ c, p.1 = oid := by
  unfold SampleManager.findOldestId at h
  cases hf : SampleManager.findOldestAux c none with
  | none => rw [hf] at h; cases h
  | some r =>
    rw [hf] at h
    simp at h
    rcases findOldestAux_mem c none r hf with h2 | h2
    · cases h2
    · obtain ⟨q, hq, hq1, _⟩ := h2
      exact ⟨q, hq, by rw [hq1, h]⟩

/-- The eviction scan of a nonempty cache yields a key. -/
theorem findOldestId_isSome (p : Nat × SampleManager.CacheEntry)
    (rest : List (Nat × SampleManager.CacheEntry)) :
    (SampleManager.findOldestId (p :: rest)).isSome = true := by
  unfold SampleManager.findOldestId
  have h : (SampleManager.findOldestAux (p :: rest) none).isSome = true := by
    simp only [SampleManager.findOldestAux]
    exact findOldestAux_isSome rest _ (by simp)
  cases hf : SampleManager.findOldestAux (p :: rest) none with
  | none => rw [hf] at h; simp at h
  | some r => simp

/-- evictLRU on a nonempty cache removes exactly one entry and keeps the
capacity and sample table. -/
theorem evictLRU_shrink (st : SampleManager.State) (h : st.cache ≠ []) :
    (SampleManager.evictLRU st).cache.length + 1 = st.cache.length ∧
      (SampleManager.evictLRU st).maxCacheSize = st.maxCacheSize := by
  obtain ⟨p, rest, hc⟩ : ∃ p rest, st.cache = p :: rest := by
    cases hcase : st.cache with
    | nil => exact absurd hcase h
    | cons p rest => exact ⟨p, rest, rfl⟩
  have hsome : (SampleManager.findOldestId st.cache).isSome = true := by
    rw [hc]; exact findOldestId_isSome p rest
  obtain ⟨oid, hoid⟩ := Option.isSome_iff_exists.mp hsome
  have hmem := findOldestId_mem st.cache oid hoid
  constructor
  · simp only [SampleManager.evictLRU, hoid]
    exact cacheDelete_length st.cache oid hmem
  · simp only [SampleManager.evictLRU, hoid]

/-- The eviction loop, given fuel at least the cache size and a positive
capacity, always ends strictly below capacity (room for the insertion that
follows), keeping the capacity field. -/
theorem evictLoop_bound :
    ∀ (fuel : Nat) (st : SampleManager.State),
      st.cache.length ≤ fuel → 1 ≤ st.maxCacheSize →
      (SampleManager.evictLoop fuel st).cache.length + 1 ≤ st.maxCacheSize ∧
        (SampleManager.evictLoop fuel st).maxCacheSize = st.maxCacheSize := by
  intro fuel
  induction fuel with
  | zero =>
    intro st hf h1
    have h0 : st.cache.length = 0 := Nat.le_zero.mp hf
    constructor
    · show st.cache.length + 1 ≤ st.maxCacheSize
      omega
    · rfl
  | succ fuel ih =>
    intro st hf h1
    simp only [SampleManager.evictLoop]
    by_cases hcond : st.maxCacheSize ≤ st.cache.length ∧ st.cache ≠ []
    · rw [if_pos hcond]
      have hsh := evictLRU_shrink st hcond.2
      have hlen : (SampleManager.evictLRU st).cache.length ≤ fuel := by omega
      have hmax : 1 ≤ (SampleManager.evictLRU st).maxCacheSize := by
        rw [hsh.2]; exact h1
      have := ih (SampleManager.evictLRU st) hlen hmax
      rw [hsh.2] at this
      exact this
    · rw [if_neg hcond]
      rcases Decidable.not_and_iff_or_not.mp hcond with h2 | h2
      · omega
      · simp only [ne_eq, Decidable.not_not] at h2
        have : st.cache.length = 0 := by rw [h2]; rfl
        omega

/-- addToCache stays within a positive capacity and keeps the capacity. -/
theorem addToCache_le (st : SampleManager.State) (id blen now : Nat)
    (h1 : 1 ≤ st.maxCacheSize) :
    (SampleManager.addToCache st id blen now).cache.length ≤ st.maxCacheSize ∧
      (SampleManager.addToCache st id blen now).maxCacheSize = st.maxCacheSize := by
  have hev := evictLoop_bound st.cache.length st le_rfl h1
  unfold SampleManager.addToCache
  constructor
  · have := cacheSet_length_le
      (SampleManager.evictLoop st.cache.length st).cache id
      { bufferLen := blen, lastAccessed := now, size := blen * 1 * 4 }
    simp only
    omega
  · simp only
    exact hev.2

/-- One cache event keeps the entry count within a positive capacity and
keeps the capacity. -/
theorem applyEventCache_le (st : SampleManager.State) (e : SampleManager.Event)
    (h1 : 1 ≤ st.maxCacheSize) (h2 : st.cache.length ≤ st.maxCacheSize) :
    (SampleManager.applyEvent st e).cache.length ≤ st.maxCacheSize ∧
      (SampleManager.applyEvent st e).maxCacheSize = st.maxCacheSize := by
  cases e with
  | load now id =>
    simp only [SampleManager.applyEvent, SampleManager.loadSample]
    cases hfind : SampleManager.cacheFind st.cache id with
    | some e0 =>
      simp only
      constructor
      · rw [cacheSet_length_of_found st.cache id e0 _ hfind]
        exact h2
      · trivial
    | none =>
      cases hdata : SampleManager.getSampleData st id with
      | none => exact ⟨h2, rfl⟩
      | some s => exact addToCache_le st id s.data.length now h1
  | getSync now id =>
    simp only [SampleManager.applyEvent, SampleManager.getSample]
    cases hfind : SampleManager.cacheFind st.cache id with
    | some e0 =>
      simp only
      constructor
      · rw [cacheSet_length_of_found st.cache id e0 _ hfind]
        exact h2
      · trivial
    | none => exact ⟨h2, rfl⟩
  | clear =>
    simp [SampleManager.applyEvent, SampleManager.clearCache]

/-- The constructed manager always has a positive capacity (the or-default
maps an absent or zero configuration to 150). -/
theorem create_maxCacheSize_pos (samples : List SF2.Sample) (cfg : Option Nat) :
    1 ≤ (SampleManager.create samples cfg).maxCacheSize := by
  rcases cfg with _ | n
  · simp [SampleManager.create]
  · cases n with
    | zero => simp [SampleManager.create]
    | succ m => simp [SampleManager.create]

/-- Run preserves the capacity bound from any state satisfying it. -/
theorem runCache_le (evts : List SampleManager.Event)
    (st : SampleManager.State) (h1 : 1 ≤ st.maxCacheSize)
    (h2 : st.cache.length ≤ st.maxCacheSize) :
    (SampleManager.run st evts).cache.length ≤ st.maxCacheSize ∧
      (SampleManager.run st evts).maxCacheSize = st.maxCacheSize := by
  induction evts generalizing st with
  | nil => exact ⟨h2, rfl⟩
  | cons e rest ih =>
    have hstep := applyEventCache_le st e h1 h2
    have := ih (SampleManager.applyEvent st e)
      (by rw [hstep.2]; exact h1) (by rw [hstep.2]; exact hstep.1)
    rw [SampleManager.run, List.foldl_cons] at *
    exact ⟨by rw [← hstep.2]; exact this.1, by rw [← hstep.2]; exact this.2⟩

/-- C4: the cache never holds more entries than its capacity (default 150)
across any sequence of loads; the eviction loop ends strictly below capacity
before the insertion happens; and the evicted entry is always one with the
minimal lastAccessed timestamp. -/
theorem c4_lru_cache_bounded :
    (∀ (samples : List SF2.Sample) (cfg : Option Nat)
        (evts : List SampleManager.Event),
      (SampleManager.run (SampleManager.create samples cfg) evts).cache.length ≤
        (SampleManager.create samples cfg).maxCacheSize) ∧
    (∀ st : SampleManager.State, 1 ≤ st.maxCacheSize →
      (SampleManager.evictLoop st.cache.length st).cache.length + 1 ≤
        st.maxCacheSize) ∧
    (∀ (c : List (Nat × SampleManager.CacheEntry)) (oid : Nat),
      SampleManager.findOldestId c = some oid →
        ∃ e, (oid, e) ∈ c ∧ ∀ p ∈ c, e.lastAccessed ≤ p.2.lastAccessed) := by
  refine ⟨?_, ?_, ?_⟩
  · intro samples cfg evts
    exact (runCache_le evts (SampleManager.create samples cfg)
      (create_maxCacheSize_pos samples cfg)
      (by simp [SampleManager.create])).1
  · intro st h1
    exact (evictLoop_bound st.cache.length st le_rfl h1).1
  · intro c oid h
    unfold SampleManager.findOldestId at h
    cases hf : SampleManager.findOldestAux c none with
    | none => rw [hf] at h; cases h
    | some r =>
      rw [hf] at h
      simp at h
      rcases findOldestAux_mem c none r hf with h2 | h2
      · cases h2
      · obtain ⟨q, hq, hq1, hq2⟩ := h2
        obtain ⟨q1, q2⟩ := q
        refine ⟨q2, ?_, ?_⟩
        · simp only at hq1
          rw [← h, ← hq1]
          exact hq
        · intro p hp
          have hmin := (findOldestAux_min c none r hf).1 p hp
          simp only at hq2
          rw [hq2]
          exact hmin

/-- A concrete over-capacity cache for the C4 witness. -/
def lruDemoCache : List (Nat × SampleManager.CacheEntry) :=
  [(1, { bufferLen := 4, lastAccessed := 30, size := 16 }),
   (2, { bufferLen := 4, lastAccessed := 10, size := 16 }),
   (3, { bufferLen := 4, lastAccessed := 20, size := 16 })]

/-- A concrete manager state over capacity 2 for the C4 witness. -/
def lruDemoState : SampleManager.State :=
  { samples := [], cache := lruDemoCache, maxCacheSize := 2,
    totalMemoryUsage := 48 }

/-- Witness for C4: the concrete three-entry cache over capacity 2 evicts to
strictly below capacity, and the scan names the entry with the minimal
timestamp. -/
theorem c4_lru_cache_bounded_witness :
    (SampleManager.evictLoop lruDemoState.cache.length
        lruDemoState).cache.length + 1 ≤ lruDemoState.maxCacheSize ∧
    ∃ e, (2, e) ∈ lruDemoCache ∧
      ∀ p ∈ lruDemoCache, e.lastAccessed ≤ p.2.lastAccessed :=
  ⟨c4_lru_cache_bounded.2.1 lruDemoState (by decide),
   c4_lru_cache_bounded.2.2 lruDemoCache 2 (by decide)⟩

/-- A passed required-chunk check means every required chunk is present. -/
theorem checkRequired_ok (table : List (List Nat × Nat × Nat)) :
    ∀ (l : List (List Nat)) (u : Unit), SF2.checkRequired table l = .ok u →
      ∀ name ∈ l, (SF2.lookupChunk table name).isSome = true := by
  intro l
  induction l with
  | nil => intro u h name hn; cases hn
  | cons c rest ih =>
    intro u h name hn
    rw [SF2.checkRequired] at h
    by_cases hc : (SF2.lookupChunk table c).isSome = true
    · rw [if_pos hc] at h
      rcases List.mem_cons.mp hn with rfl | hn2
      · exact hc
      · exact ih u h name hn2
    · rw [if_neg hc] at h
      cases h

/-- The minimal bank used as the concrete C6 and C7 instance: valid container
and chunk structure, one sample header whose end offset 10 exceeds the
two-sample PCM block, and a terminator header. -/
def badBankBytes : List Nat :=
  [82, 73, 70, 70] ++ [4, 1, 0, 0] ++ [115, 102, 98, 107] ++
  [76, 73, 83, 84] ++ [4, 0, 0, 0] ++ [73, 78, 70, 79] ++
  [76, 73, 83, 84] ++ [16, 0, 0, 0] ++ [115, 100, 116, 97] ++
  [115, 109, 112, 108] ++ [4, 0, 0, 0] ++ [1, 0, 2, 0] ++
  [76, 73, 83, 84] ++ [212, 0, 0, 0] ++ [112, 100, 116, 97] ++
  [112, 104, 100, 114] ++ [38, 0, 0, 0] ++ List.replicate 38 0 ++
  [112, 98, 97, 103] ++ [0, 0, 0, 0] ++
  [112, 103, 101, 110] ++ [0, 0, 0, 0] ++
  [105, 110, 115, 116] ++ [22, 0, 0, 0] ++ List.replicate 22 0 ++
  [105, 98, 97, 103] ++ [0, 0, 0, 0] ++
  [105, 103, 101, 110] ++ [0, 0, 0, 0] ++
  [115, 104, 100, 114] ++ [92, 0, 0, 0] ++
  (List.replicate 20 0 ++ [0, 0, 0, 0] ++ [10, 0, 0, 0] ++ [0, 0, 0, 0] ++
    [0, 0, 0, 0] ++ [34, 86, 0, 0] ++ [60] ++ [0] ++ [0, 0] ++ [0, 0]) ++
  List.replicate 46 0

/-- The value parse returns on badBankBytes: default info, the silent
placeholder produced for the out-of-range header, and no presets or
instruments. -/
def badBankParsed : SF2.SF2Data :=
  { info := {},
    samples := [{ name := "Sample 0", data := [],
                  header := { start := 0, endPos := 0, startLoop := 0,
                              endLoop := 0, sampleRate := 22050,
                              originalPitch := 60, pitchCorrection := 0 } }],
    presets := [], instruments := [] }

/-- The same bank with the whole shdr sub-chunk removed. -/
def noShdrBytes : List Nat :=
  [82, 73, 70, 70] ++ [160, 0, 0, 0] ++ [115, 102, 98, 107] ++
  [76, 73, 83, 84] ++ [4, 0, 0, 0] ++ [73, 78, 70, 79] ++
  [76, 73, 83, 84] ++ [16, 0, 0, 0] ++ [115, 100, 116, 97] ++
  [115, 109, 112, 108] ++ [4, 0, 0, 0] ++ [1, 0, 2, 0] ++
  [76, 73, 83, 84] ++ [112, 0, 0, 0] ++ [112, 100, 116, 97] ++
  [112, 104, 100, 114] ++ [38, 0, 0, 0] ++ List.replicate 38 0 ++
  [112, 98, 97, 103] ++ [0, 0, 0, 0] ++
  [112, 103, 101, 110] ++ [0, 0, 0, 0] ++
  [105, 110, 115, 116] ++ [22, 0, 0, 0] ++ List.replicate 22 0 ++
  [105, 98, 97, 103] ++ [0, 0, 0, 0] ++
  [105, 103, 101, 110] ++ [0, 0, 0, 0]

set_option maxRecDepth 100000 in
/-- C6: a successful parse implies the container signature was RIFF with form
type sfbk and all seven mandatory pdta sub-chunks were present in the scanned
sub-chunk table, so a wrong signature or a missing mandatory sub-chunk makes
parse fail; in particular the concrete bank missing its sample-header chunk
fails with a format error and returns no partial bank data. -/
theorem c6_parse_mandatory_structure :
    (∀ (bs : List Nat) (d : SF2.SF2Data), SF2.parse bs = .ok d →
      SF2.readFourCC bs 0 = SF2.ccRIFF ∧ SF2.readFourCC bs 8 = SF2.ccSfbk ∧
      ∃ chunks, SF2.findChunks bs = .ok chunks ∧
        ∀ name ∈ SF2.requiredChunks,
          (SF2.lookupChunk (SF2.pdtaChunkTable bs chunks.pdta) name).isSome = true) ∧
    SF2.parse noShdrBytes =
      .error "SF2 Parse Error: Required PDTA chunk not found" := by
  constructor
  · intro bs d h
    unfold SF2.parse at h
    cases hbp : SF2.parseBody bs with
    | error e => rw [hbp] at h; simp at h
    | ok d0 =>
      unfold SF2.parseBody at hbp
      split at hbp
      · cases hbp
      · rename_i u hv
        have hsig : SF2.readFourCC bs 0 = SF2.ccRIFF ∧
            SF2.readFourCC bs 8 = SF2.ccSfbk := by
          unfold SF2.validateRIFF at hv
          by_cases h1 : SF2.readFourCC bs 0 ≠ SF2.ccRIFF
          · rw [if_pos h1] at hv; cases hv
          · rw [if_neg h1] at hv
            by_cases h2 : SF2.readFourCC bs 8 ≠ SF2.ccSfbk
            · rw [if_pos h2] at hv; cases hv
            · exact ⟨Decidable.not_not.mp h1, Decidable.not_not.mp h2⟩
        split at hbp
        · cases hbp
        · rename_i chunks hc
          refine ⟨hsig.1, hsig.2, chunks, hc, ?_⟩
          split at hbp
          · cases hbp
          · rename_i samples0 hs
            split at hbp
            · cases hbp
            · rename_i res hp
              unfold SF2.parsePDTA at hp
              dsimp only at hp
              cases hck : SF2.checkRequired
                  (SF2.pdtaChunkTable bs chunks.pdta) SF2.requiredChunks with
              | error e5 => rw [hck] at hp; simp at hp
              | ok u2 =>
                exact checkRequired_ok (SF2.pdtaChunkTable bs chunks.pdta)
                  SF2.requiredChunks u2 hck
  · rfl

set_option maxRecDepth 100000 in
/-- Witness for C6: the concrete valid bank parses, so the theorem yields its
signature facts and the presence of all seven mandatory sub-chunks. -/
theorem c6_parse_mandatory_structure_witness :
    SF2.readFourCC badBankBytes 0 = SF2.ccRIFF ∧
    SF2.readFourCC badBankBytes 8 = SF2.ccSfbk ∧
    ∃ chunks, SF2.findChunks badBankBytes = .ok chunks ∧
      ∀ name ∈ SF2.requiredChunks,
        (SF2.lookupChunk (SF2.pdtaChunkTable badBankBytes chunks.pdta)
            name).isSome = true :=
  c6_parse_mandatory_structure.1 badBankBytes badBankParsed (by rfl)

set_option maxRecDepth 100000 in
/-- C7 counterexample: the concrete bank parses successfully, yet its single
sample record (the placeholder produced for the out-of-range header) violates
the claimed invariant, since its startLoop and endLoop are both 0, so
startLoop < endLoop fails. -/
theorem c7_loop_invariant_counterexample :
    SF2.parse badBankBytes = Except.ok badBankParsed ∧
    badBankParsed.samples.all (fun s =>
      decide (s.header.startLoop < s.header.endLoop ∧
        s.header.endLoop ≤ s.data.length)) = false :=
  ⟨by rfl, by rfl⟩

/-- C7 as amended: a sample header failing the bounds check is replaced by an
empty, silent placeholder (empty PCM, zeroed offsets) together with a
recorded warning; a header passing the check yields the PCM slice with no
warning; and every header yields a record, so parsing never aborts on a bad
sample header.  The loop-point invariant itself does not hold (see the
counterexample). -/
theorem c7_sample_bounds_placeholder :
    (∀ (smplData : List Int) (i : Nat) (nh : String × SF2.SampleHeader),
      (nh.2.start ≥ smplData.length ∨ nh.2.endPos > smplData.length ∨
        nh.2.start ≥ nh.2.endPos) →
      ((SF2.buildSample smplData i nh).1.data = [] ∧
       ((SF2.buildSample smplData i nh).2).isSome = true ∧
       (SF2.buildSample smplData i nh).1.header.start = 0 ∧
       (SF2.buildSample smplData i nh).1.header.endPos = 0)) ∧
    (∀ (smplData : List Int) (i : Nat) (nh : String × SF2.SampleHeader),
      ¬(nh.2.start ≥ smplData.length ∨ nh.2.endPos > smplData.length ∨
        nh.2.start ≥ nh.2.endPos) →
      ((SF2.buildSample smplData i nh).1.data =
        (smplData.drop nh.2.start).take (nh.2.endPos - nh.2.start) ∧
       (SF2.buildSample smplData i nh).2 = none)) ∧
    (∀ (smplData : List Int) (headers : List (String × SF2.SampleHeader)),
      (SF2.buildSamples smplData headers).length = headers.length) := by
  refine ⟨?_, ?_, ?_⟩
  · intro smplData i nh h
    unfold SF2.buildSample
    rw [if_pos h]
    exact ⟨rfl, rfl, rfl, rfl⟩
  · intro smplData i nh h
    unfold SF2.buildSample
    rw [if_neg h]
    exact ⟨rfl, rfl⟩
  · intro smplData headers
    simp [SF2.buildSamples]

/-- Witness for C7 (amended): the concrete out-of-range header (end offset 10
against a two-sample block) degrades to the placeholder with a warning. -/
theorem c7_sample_bounds_placeholder_witness :
    (SF2.buildSample [1, 2] 0
        ("", { start := 0, endPos := 10, startLoop := 0, endLoop := 0,
               sampleRate := 22050, originalPitch := 60,
               pitchCorrection := 0 })).1.data = [] ∧
    ((SF2.buildSample [1, 2] 0
        ("", { start := 0, endPos := 10, startLoop := 0, endLoop := 0,
               sampleRate := 22050, originalPitch := 60,
               pitchCorrection := 0 })).2).isSome = true ∧
    (SF2.buildSample [1, 2] 0
        ("", { start := 0, endPos := 10, startLoop := 0, endLoop := 0,
               sampleRate := 22050, originalPitch := 60,
               pitchCorrection := 0 })).1.header.start = 0 ∧
    (SF2.buildSample [1, 2] 0
        ("", { start := 0, endPos := 10, startLoop := 0, endLoop := 0,
               sampleRate := 22050, originalPitch := 60,
               pitchCorrection := 0 })).1.header.endPos = 0 :=
  c7_sample_bounds_placeholder.1 [1, 2] 0
    ("", { start := 0, endPos := 10, startLoop := 0, endLoop := 0,
           sampleRate := 22050, originalPitch := 60, pitchCorrection := 0 })
    (by decide)
